import Mathlib

/-!
Verification of the kinematic core of the AMBF Blender add-on
(`ambf_addon.py`): the rotation-from-two-vectors primitives, the
hierarchy-ordering pass, the joint pivot/axis/offset extraction (export
path), the joint-frame composition (import path), and the joint-kind
classifier.  Floating-point numbers are modelled as exact reals; the
machine quantities that are rational stay rational, so branch conditions
evaluate exactly.
-/

namespace AmbfAddon

open scoped Classical
open scoped Matrix

noncomputable section

/-! ## Vectors and matrices

A `mathutils.Vector` of length 3 is a `Fin 3 → ℝ`; the rotation block of a
`mathutils.Matrix` is a `Matrix (Fin 3) (Fin 3) ℝ`. -/

abbrev V3 := Fin 3 → ℝ
abbrev M3 := Matrix (Fin 3) (Fin 3) ℝ

def xAxis : V3 := ![1, 0, 0]
def yAxis : V3 := ![0, 1, 0]
def zAxis : V3 := ![0, 0, 1]

/-- Dot product of two 3-vectors (`mathutils.Vector.dot`). -/
def dot3 (a b : V3) : ℝ := a 0 * b 0 + a 1 * b 1 + a 2 * b 2

/-- Cross product of two 3-vectors (`mathutils.Vector.cross`). -/
def cross3 (a b : V3) : V3 :=
  ![a 1 * b 2 - a 2 * b 1, a 2 * b 0 - a 0 * b 2, a 0 * b 1 - a 1 * b 0]

/-- The source's `vec_norm`: `sqrt(v[0]**2 + v[1]**2 + v[2]**2)`. -/
def vec_norm (v : V3) : ℝ := Real.sqrt (v 0 ^ 2 + v 1 ^ 2 + v 2 ^ 2)

/-- `mathutils.Vector.angle`: the arc-cosine of the normalised dot product. -/
def angle3 (a b : V3) : ℝ := Real.arccos (dot3 a b / (vec_norm a * vec_norm b))

/-- The source's `skew_mat`: the skew-symmetric cross-product matrix of `v`. -/
def skew_mat (v : V3) : M3 :=
  !![0, -(v 2), v 1; v 2, 0, -(v 0); -(v 1), v 0, 0]

/-- `mathutils.Matrix.Rotation(θ, _, axis)`: rotation by `θ` about the
normalisation of `axis`, in Rodrigues form. -/
def rotationMat (θ : ℝ) (axis : V3) : M3 :=
  Real.cos θ • (1 : M3)
    + Real.sin θ • skew_mat (fun i => axis i / vec_norm axis)
    + (1 - Real.cos θ) • Matrix.vecMulVec (fun i => axis i / vec_norm axis)
        (fun i => axis i / vec_norm axis)

/-- The source's `rot_matrix_from_vecs`: shortest-arc rotation taking `v1`
towards `v2`, with an identity snap when `1 - v1·v2 < 0.1`, a special branch
near anti-parallel inputs, and the skew/Rodrigues construction otherwise. -/
def rot_matrix_from_vecs (v1 v2 : V3) : M3 :=
  if 1 - dot3 v1 v2 < 1 / 10 then 1
  else if 1 + dot3 v1 v2 < 1 / 10 then
    (if 1 / 10 < |angle3 v1 xAxis| ∧ |angle3 v1 xAxis| < 313 / 100 then
       rotationMat (angle3 v1 v2) (cross3 v1 xAxis)
     else
       rotationMat (angle3 v1 v2) (cross3 v1 yAxis))
  else
    1 + skew_mat (cross3 v1 v2)
      + ((1 - dot3 v1 v2) / vec_norm (cross3 v1 v2) ^ 2)
        • (skew_mat (cross3 v1 v2) * skew_mat (cross3 v1 v2))

/-- The source's `get_rot_mat_from_vecs`: axis/angle variant.  Returns the
rotation matrix together with the angle; for `|angle| ≤ 0.1` the axis is the
arbitrary `Y` axis, near `π` an axis orthogonal to `vecA` is constructed, and
otherwise the cross product is used. -/
def get_rot_mat_axis (vecA vecB : V3) : V3 :=
  if |angle3 vecA vecB| ≤ 1 / 10 then yAxis
  else if |angle3 vecA vecB| ≥ 313 / 100 then
    (if 1 / 10 < |angle3 vecA xAxis| ∧ |angle3 vecA xAxis| < 313 / 100 then
       cross3 vecA xAxis
     else cross3 vecA yAxis)
  else cross3 vecA vecB

def get_rot_mat_from_vecs (vecA vecB : V3) : M3 × ℝ :=
  (rotationMat (angle3 vecA vecB) (get_rot_mat_axis vecA vecB), angle3 vecA vecB)

/-! ## Rigid transforms -/

/-- A rigid transform: rotation block and translation column of a 4×4
`mathutils.Matrix` (the source strips scale before using these, via
`to_euler().to_matrix()`, which is the identity on proper rotation blocks). -/
structure Tf where
  R : M3
  t : V3

instance : Mul Tf := ⟨fun A B => ⟨A.R * B.R, A.R.mulVec B.t + A.t⟩⟩

instance : One Tf := ⟨⟨1, fun _ => 0⟩⟩

theorem Tf.mul_def (A B : Tf) : A * B = ⟨A.R * B.R, A.R.mulVec B.t + A.t⟩ := rfl

theorem Tf.one_def : (1 : Tf) = ⟨1, fun _ => 0⟩ := rfl

/-- `mathutils.Matrix.invert` applied to a rigid 4×4 transform: the rotation
block is inverted as a matrix, the translation becomes `-(R⁻¹ t)`. -/
def Tf.inv (A : Tf) : Tf := ⟨A.R⁻¹, -(A.R⁻¹.mulVec A.t)⟩

/-- A pure translation (`mathutils.Matrix()` with a `translation` assigned). -/
def transl (v : V3) : Tf := ⟨1, v⟩

/-! ## Basic algebraic lemmas about the primitives -/

theorem dot3_comm (a b : V3) : dot3 a b = dot3 b a := by
  simp only [dot3]; ring

/-- A unit vector: unit of the exact real model. -/
def unit3 (v : V3) : Prop := dot3 v v = 1

theorem vec_norm_eq_one {v : V3} (h : unit3 v) : vec_norm v = 1 := by
  have : v 0 ^ 2 + v 1 ^ 2 + v 2 ^ 2 = 1 := by
    have := h; simp only [unit3, dot3] at this; nlinarith [this]
  rw [vec_norm, this, Real.sqrt_one]

theorem vec_norm_nonneg (v : V3) : 0 ≤ vec_norm v := Real.sqrt_nonneg _

theorem unit3_xAxis : unit3 xAxis := by simp [unit3, dot3, xAxis]

theorem unit3_yAxis : unit3 yAxis := by simp [unit3, dot3, yAxis]

theorem unit3_zAxis : unit3 zAxis := by simp [unit3, dot3, zAxis]

theorem cross3_self (a : V3) : cross3 a a = fun _ => (0 : ℝ) := by
  funext i; fin_cases i <;> simp [cross3] <;> ring

theorem skew_mulVec (v w : V3) : (skew_mat v).mulVec w = cross3 v w := by
  funext i
  fin_cases i <;>
    simp [skew_mat, cross3, Matrix.mulVec, Matrix.dotProduct, Fin.sum_univ_three] <;> ring

theorem vecMulVec_mulVec (a b w : V3) :
    (Matrix.vecMulVec a b).mulVec w = dot3 b w • a := by
  funext i
  fin_cases i <;>
    simp [Matrix.vecMulVec, Matrix.mulVec, Matrix.dotProduct, dot3,
      Fin.sum_univ_three] <;> ring

theorem skew_mul_skew {u : V3} (h : unit3 u) :
    skew_mat u * skew_mat u = Matrix.vecMulVec u u - 1 := by
  have h' : u 0 * u 0 + u 1 * u 1 + u 2 * u 2 = 1 := h
  ext i j
  fin_cases i <;> fin_cases j <;>
    simp [skew_mat, Matrix.mul_apply, Matrix.vecMulVec, Fin.sum_univ_three,
      Matrix.one_apply] <;> nlinarith [h']


theorem skew_mul_outer (u : V3) :
    skew_mat u * Matrix.vecMulVec u u = 0 := by
  ext i j
  fin_cases i <;> fin_cases j <;>
    simp [skew_mat, Matrix.mul_apply, Matrix.vecMulVec, Fin.sum_univ_three] <;> ring

theorem outer_mul_skew (u : V3) :
    Matrix.vecMulVec u u * skew_mat u = 0 := by
  ext i j
  fin_cases i <;> fin_cases j <;>
    simp [skew_mat, Matrix.mul_apply, Matrix.vecMulVec, Fin.sum_univ_three] <;> ring

theorem outer_mul_outer {u : V3} (h : unit3 u) :
    Matrix.vecMulVec u u * Matrix.vecMulVec u u = Matrix.vecMulVec u u := by
  have h' : u 0 * u 0 + u 1 * u 1 + u 2 * u 2 = 1 := h
  ext i j
  rw [Matrix.mul_apply]
  simp only [Matrix.vecMulVec_apply, Fin.sum_univ_three]
  linear_combination (u i * u j) * h'

theorem skew_transpose (u : V3) : (skew_mat u)ᵀ = -skew_mat u := by
  ext i j
  fin_cases i <;> fin_cases j <;> simp [skew_mat, Matrix.transpose_apply]

theorem outer_transpose (u : V3) :
    (Matrix.vecMulVec u u)ᵀ = Matrix.vecMulVec u u := by
  ext i j
  fin_cases i <;> fin_cases j <;> simp [Matrix.vecMulVec, Matrix.transpose_apply] <;> ring

/-- On a unit axis the normalisation inside `rotationMat` is trivial, leaving
the plain Rodrigues form. -/
theorem rotationMat_unit {u : V3} (h : unit3 u) (θ : ℝ) :
    rotationMat θ u =
      Real.cos θ • (1 : M3) + Real.sin θ • skew_mat u
        + (1 - Real.cos θ) • Matrix.vecMulVec u u := by
  have hn : vec_norm u = 1 := vec_norm_eq_one h
  have : (fun i => u i / vec_norm u) = u := by funext i; rw [hn, div_one]
  rw [rotationMat, this]

/-- Rotation by `0` is the identity, whatever the axis. -/
theorem rotationMat_zero (axis : V3) : rotationMat 0 axis = 1 := by
  simp [rotationMat]

/-- A rotation fixes its own (unit) axis. -/
theorem rotationMat_mulVec_self {u : V3} (h : unit3 u) (θ : ℝ) :
    (rotationMat θ u).mulVec u = u := by
  rw [rotationMat_unit h]
  have h1 : dot3 u u = 1 := h
  simp only [Matrix.add_mulVec, Matrix.smul_mulVec_assoc, Matrix.one_mulVec,
    skew_mulVec, vecMulVec_mulVec, cross3_self, h1]
  funext i
  simp [Pi.add_apply, Pi.smul_apply]
  ring

/-- Composition of two rotations about the same unit axis adds the angles. -/
theorem rotationMat_mul {u : V3} (h : unit3 u) (α β : ℝ) :
    rotationMat α u * rotationMat β u = rotationMat (α + β) u := by
  rw [rotationMat_unit h, rotationMat_unit h, rotationMat_unit h]
  simp only [Matrix.add_mul, Matrix.mul_add, smul_mul_assoc, mul_smul_comm,
    Matrix.one_mul, Matrix.mul_one, smul_smul,
    skew_mul_skew h, skew_mul_outer, outer_mul_skew, outer_mul_outer h]
  simp only [smul_sub, smul_zero, add_zero, zero_add]
  rw [Real.cos_add, Real.sin_add]
  module

/-- The transpose of a rotation about a unit axis is the reverse rotation. -/
theorem rotationMat_transpose {u : V3} (h : unit3 u) (θ : ℝ) :
    (rotationMat θ u)ᵀ = rotationMat (-θ) u := by
  rw [rotationMat_unit h, rotationMat_unit h]
  simp only [Matrix.transpose_add, Matrix.transpose_smul, Matrix.transpose_one,
    skew_transpose, outer_transpose, Real.cos_neg, Real.sin_neg]
  module

/-- Orthonormality of `rotationMat` on a unit axis. -/
theorem rotationMat_orthonormal {u : V3} (h : unit3 u) (θ : ℝ) :
    (rotationMat θ u)ᵀ * rotationMat θ u = 1 := by
  rw [rotationMat_transpose h, rotationMat_mul h, neg_add_cancel, rotationMat_zero]

/-- Quaternion-mediated axis/angle extraction
(`to_quaternion().to_axis_angle()` in the source) for a proper rotation
matrix whose angle lies in `(0, π)`: the angle is `arccos((trace − 1)/2)`
and the axis is the normalised antisymmetric part. -/
def to_axis_angle (R : M3) : V3 × ℝ :=
  (![(R 2 1 - R 1 2) / (2 * Real.sin (Real.arccos ((Matrix.trace R - 1) / 2))),
     (R 0 2 - R 2 0) / (2 * Real.sin (Real.arccos ((Matrix.trace R - 1) / 2))),
     (R 1 0 - R 0 1) / (2 * Real.sin (Real.arccos ((Matrix.trace R - 1) / 2)))],
   Real.arccos ((Matrix.trace R - 1) / 2))

/-- Python's `round(x, 4)` in the exact-real model: scale by `10^4` and
round half to even. -/
def round4 (x : ℝ) : ℝ :=
  (if x * 10 ^ 4 - (⌊x * 10 ^ 4⌋ : ℝ) < 1 / 2 then (⌊x * 10 ^ 4⌋ : ℝ)
   else if 1 / 2 < x * 10 ^ 4 - (⌊x * 10 ^ 4⌋ : ℝ) then (⌊x * 10 ^ 4⌋ : ℝ) + 1
   else if 2 ∣ ⌊x * 10 ^ 4⌋ then (⌊x * 10 ^ 4⌋ : ℝ)
   else (⌊x * 10 ^ 4⌋ : ℝ) + 1) / 10 ^ 4

/-- Componentwise `round(·, 4)` of a vector, as performed field by field on
emission. -/
def round4V (v : V3) : V3 := fun i => round4 (v i)

theorem round4_sub_abs_le (x : ℝ) : |round4 x - x| ≤ 1 / 20000 := by
  unfold round4
  set y := x * 10 ^ 4 with hy
  have hx : x = y / 10 ^ 4 := by rw [hy]; field_simp
  have h0 : (0 : ℝ) ≤ y - (⌊y⌋ : ℝ) := sub_nonneg.mpr (Int.floor_le y)
  have h1 : y - (⌊y⌋ : ℝ) < 1 := by
    have := Int.lt_floor_add_one y; linarith
  have key : ∀ z : ℝ, |z - y| ≤ 1 / 2 → |z / 10 ^ 4 - x| ≤ 1 / 20000 := by
    intro z hz
    rw [hx, div_sub_div_same, abs_div]
    have : |(10 : ℝ) ^ 4| = 10 ^ 4 := by norm_num
    rw [this]
    rw [div_le_div_iff₀ (by norm_num) (by norm_num : (0:ℝ) < 20000)]
    calc |z - y| * 20000 ≤ (1 / 2) * 20000 := by nlinarith [abs_nonneg (z - y)]
      _ = 10 ^ 4 * 1 := by norm_num
      _ = 1 * 10 ^ 4 := by ring
  split_ifs with hc1 hc2 hc3
  · exact key _ (by rw [abs_sub_comm, abs_of_nonneg h0]; linarith)
  · exact key _ (by rw [abs_of_nonneg (by linarith)]; linarith)
  · exact key _ (by rw [abs_sub_comm, abs_of_nonneg h0]; linarith)
  · exact key _ (by rw [abs_of_nonneg (by linarith)]; linarith)

/-- Values that are already exact multiples of `10⁻⁴` are fixed by
`round4`. -/
theorem round4_of_int {x : ℝ} (n : ℤ) (h : x * 10 ^ 4 = (n : ℝ)) :
    round4 x = x := by
  unfold round4
  rw [h, Int.floor_intCast]
  rw [if_pos (by norm_num : (n : ℝ) - (n : ℝ) < 1 / 2)]
  field_simp at h ⊢
  linarith

theorem round4_zero : round4 0 = 0 := round4_of_int 0 (by norm_num)

theorem round4_one : round4 1 = 1 := round4_of_int 10000 (by norm_num)

theorem round4V_xAxis : round4V xAxis = xAxis := by
  funext i
  fin_cases i <;>
    simp [round4V, xAxis, round4_zero, round4_one]

theorem round4V_zAxis : round4V zAxis = zAxis := by
  funext i
  fin_cases i <;>
    simp [round4V, zAxis, round4_zero, round4_one]

/-! ## Angle lemmas -/

theorem angle3_of_unit {a b : V3} (ha : unit3 a) (hb : unit3 b) :
    angle3 a b = Real.arccos (dot3 a b) := by
  rw [angle3, vec_norm_eq_one ha, vec_norm_eq_one hb]
  norm_num

theorem angle3_self {a : V3} (ha : unit3 a) : angle3 a a = 0 := by
  rw [angle3_of_unit ha ha, ha, Real.arccos_one]

theorem unit3_neg {a : V3} (ha : unit3 a) : unit3 (-a) := by
  simp only [unit3, dot3, Pi.neg_apply] at ha ⊢
  linarith

theorem dot3_neg_right (a b : V3) : dot3 a (-b) = -dot3 a b := by
  simp only [dot3, Pi.neg_apply]; ring

theorem angle3_neg_self {a : V3} (ha : unit3 a) : angle3 a (-a) = Real.pi := by
  rw [angle3_of_unit ha (unit3_neg ha), dot3_neg_right, ha, Real.arccos_neg_one]

/-! ## Transform lemmas -/

theorem transl_inv (v : V3) : (transl v).inv = transl (-v) := by
  simp [transl, Tf.inv, Matrix.one_mulVec, inv_one]

theorem Tf.mul_R (A B : Tf) : (A * B).R = A.R * B.R := rfl

theorem Tf.mul_t (A B : Tf) : (A * B).t = A.R.mulVec B.t + A.t := rfl

/-- Trace of a rotation about a unit axis. -/
theorem rotationMat_trace {u : V3} (h : unit3 u) (θ : ℝ) :
    Matrix.trace (rotationMat θ u) = 1 + 2 * Real.cos θ := by
  have h' : u 0 * u 0 + u 1 * u 1 + u 2 * u 2 = 1 := h
  rw [rotationMat_unit h]
  simp [Matrix.trace, Matrix.diag, Fin.sum_univ_three, skew_mat, Matrix.vecMulVec,
    Matrix.one_apply]
  linear_combination (1 - Real.cos θ) * h'

/-! ## Cross-product identities -/

theorem dot3_cross3_left (a b : V3) : dot3 (cross3 a b) a = 0 := by
  simp [dot3, cross3]; ring

theorem dot3_cross3_right (a b : V3) : dot3 (cross3 a b) b = 0 := by
  simp [dot3, cross3]; ring

/-- Lagrange identity for the cross product. -/
theorem cross3_lagrange (a b : V3) :
    dot3 (cross3 a b) (cross3 a b) = dot3 a a * dot3 b b - dot3 a b ^ 2 := by
  simp [dot3, cross3]; ring

theorem vec_norm_sq (v : V3) : vec_norm v ^ 2 = dot3 v v := by
  rw [vec_norm, Real.sq_sqrt (by positivity)]
  simp [dot3]; ring

/-- Triple product: `(a × b) × a = (a·a) b − (a·b) a`. -/
theorem cross3_cross3_self (a b : V3) :
    cross3 (cross3 a b) a = dot3 a a • b - dot3 a b • a := by
  funext i; fin_cases i <;> simp [cross3, dot3] <;> ring

/-- Triple product: `u × (u × w) = (u·w) u − (u·u) w`. -/
theorem cross3_double (u w : V3) :
    cross3 u (cross3 u w) = dot3 u w • u - dot3 u u • w := by
  funext i; fin_cases i <;> simp [cross3, dot3] <;> ring

theorem unit3_normalize {v : V3} (h : vec_norm v ≠ 0) :
    unit3 (fun i => v i / vec_norm v) := by
  have h2 : vec_norm v ^ 2 = dot3 v v := vec_norm_sq v
  simp only [unit3, dot3] at h2 ⊢
  field_simp
  linarith [h2]

/-- `rotationMat` only sees the direction of the axis, so it can always be
read as a unit-axis Rodrigues rotation. -/
theorem rotationMat_eq_normalize (θ : ℝ) {v : V3} (h : vec_norm v ≠ 0) :
    rotationMat θ v = rotationMat θ (fun i => v i / vec_norm v) := by
  have hu : unit3 (fun i => v i / vec_norm v) := unit3_normalize h
  rw [rotationMat_unit hu]
  rfl

theorem rotationMat_orthonormal_of_ne {v : V3} (h : vec_norm v ≠ 0) (θ : ℝ) :
    (rotationMat θ v)ᵀ * rotationMat θ v = 1 := by
  rw [rotationMat_eq_normalize θ h]
  exact rotationMat_orthonormal (unit3_normalize h) θ

/-! ## Branch lemmas for `rot_matrix_from_vecs` -/

theorem rot_matrix_from_vecs_snap {v1 v2 : V3}
    (h : 1 - dot3 v1 v2 < 1 / 10) : rot_matrix_from_vecs v1 v2 = 1 := by
  unfold rot_matrix_from_vecs
  rw [if_pos h]

theorem rot_matrix_from_vecs_generic {v1 v2 : V3}
    (h1 : ¬(1 - dot3 v1 v2 < 1 / 10)) (h2 : ¬(1 + dot3 v1 v2 < 1 / 10)) :
    rot_matrix_from_vecs v1 v2 =
      1 + skew_mat (cross3 v1 v2)
        + ((1 - dot3 v1 v2) / vec_norm (cross3 v1 v2) ^ 2)
          • (skew_mat (cross3 v1 v2) * skew_mat (cross3 v1 v2)) := by
  unfold rot_matrix_from_vecs
  rw [if_neg h1, if_neg h2]

/-- In the generic branch, on unit inputs, the Rodrigues construction maps
`v1` exactly onto `v2`. -/
theorem rot_matrix_from_vecs_generic_mulVec {a b : V3}
    (ha : unit3 a) (hb : unit3 b)
    (h1 : ¬(1 - dot3 a b < 1 / 10)) (h2 : ¬(1 + dot3 a b < 1 / 10)) :
    (rot_matrix_from_vecs a b).mulVec a = b := by
  have ha' : dot3 a a = 1 := ha
  have hb' : dot3 b b = 1 := hb
  have hc2 : vec_norm (cross3 a b) ^ 2 = 1 - dot3 a b ^ 2 := by
    rw [vec_norm_sq, cross3_lagrange, ha', hb']; ring
  have hne : (1 : ℝ) - dot3 a b ^ 2 ≠ 0 := by
    have l1 : dot3 a b ≤ 9 / 10 := by linarith [not_lt.mp h1]
    have l2 : -(9 / 10 : ℝ) ≤ dot3 a b := by linarith [not_lt.mp h2]
    nlinarith
  rw [rot_matrix_from_vecs_generic h1 h2]
  rw [Matrix.add_mulVec, Matrix.add_mulVec, Matrix.one_mulVec,
    Matrix.smul_mulVec_assoc, ← Matrix.mulVec_mulVec, skew_mulVec, skew_mulVec,
    cross3_double, dot3_cross3_left, cross3_lagrange,
    cross3_cross3_self, ha', hb', hc2]
  funext i
  simp only [Pi.add_apply, Pi.smul_apply, Pi.sub_apply, Pi.zero_apply,
    smul_eq_mul, one_mul, zero_smul, zero_sub, mul_neg, neg_mul]
  field_simp
  ring

theorem vec_norm_ne_zero_of_dot_pos {v : V3} (h : 0 < dot3 v v) :
    vec_norm v ≠ 0 := by
  intro h0
  have := vec_norm_sq v
  rw [h0] at this
  simp at this
  linarith

/-- Rotation by `π` about a nonzero axis, in symmetric reflection form. -/
theorem rotationMat_pi {v : V3} (h : vec_norm v ≠ 0) :
    rotationMat Real.pi v
      = (2 : ℝ) • Matrix.vecMulVec (fun i => v i / vec_norm v)
          (fun i => v i / vec_norm v) - 1 := by
  rw [rotationMat_eq_normalize _ h, rotationMat_unit (unit3_normalize h),
    Real.cos_pi, Real.sin_pi]
  module

theorem dot3_div_left (v a : V3) (n : ℝ) :
    dot3 (fun i => v i / n) a = dot3 v a / n := by
  simp only [dot3]; ring

/-- The anti-parallel branch of `rot_matrix_from_vecs` on a unit vector:
the result is the rotation by `π` about a unit axis orthogonal to the
input. -/
theorem rot_matrix_from_vecs_antiparallel {a : V3} (ha : unit3 a) :
    ∃ u : V3, unit3 u ∧ dot3 u a = 0 ∧
      rot_matrix_from_vecs a (-a) = (2 : ℝ) • Matrix.vecMulVec u u - 1 := by
  have ha' : dot3 a a = 1 := ha
  have hd : dot3 a (-a) = -1 := by rw [dot3_neg_right, ha']
  have hcond1 : ¬(1 - dot3 a (-a) < 1 / 10) := by rw [hd]; norm_num
  have hcond2 : 1 + dot3 a (-a) < 1 / 10 := by rw [hd]; norm_num
  unfold rot_matrix_from_vecs
  rw [if_neg hcond1, if_pos hcond2, angle3_neg_self ha]
  by_cases hx : 1 / 10 < |angle3 a xAxis| ∧ |angle3 a xAxis| < 313 / 100
  · rw [if_pos hx]
    have hax : angle3 a xAxis = Real.arccos (dot3 a xAxis) :=
      angle3_of_unit ha unit3_xAxis
    have habs : |angle3 a xAxis| = angle3 a xAxis := by
      rw [hax]; exact abs_of_nonneg (Real.arccos_nonneg _)
    rw [habs, hax] at hx
    have ht1 : dot3 a xAxis < 1 := by
      by_contra hge
      push_neg at hge
      have : Real.arccos (dot3 a xAxis) = 0 := Real.arccos_eq_zero.mpr hge
      rw [this] at hx
      linarith [hx.1]
    have ht2 : -1 < dot3 a xAxis := by
      by_contra hle
      push_neg at hle
      have : Real.arccos (dot3 a xAxis) = Real.pi := Real.arccos_eq_pi.mpr hle
      rw [this] at hx
      linarith [hx.2, Real.pi_gt_d6]
    have hpos : 0 < dot3 (cross3 a xAxis) (cross3 a xAxis) := by
      rw [cross3_lagrange, ha']
      have : dot3 xAxis xAxis = 1 := unit3_xAxis
      rw [this]
      nlinarith
    have hnz : vec_norm (cross3 a xAxis) ≠ 0 := vec_norm_ne_zero_of_dot_pos hpos
    refine ⟨_, unit3_normalize hnz, ?_, rotationMat_pi hnz⟩
    rw [dot3_div_left, dot3_cross3_left, zero_div]
  · rw [if_neg hx]
    have hay : (dot3 a yAxis) ^ 2 < 1 := by
      by_contra hge
      push_neg at hge
      have hsum : a 0 * a 0 + a 1 * a 1 + a 2 * a 2 = 1 := ha'
      have hy : dot3 a yAxis = a 1 := by simp [dot3, yAxis]
      rw [hy] at hge
      have hx0 : a 0 = 0 := by nlinarith
      have hdx : dot3 a xAxis = 0 := by simp [dot3, xAxis, hx0]
      have : angle3 a xAxis = Real.pi / 2 := by
        rw [angle3_of_unit ha unit3_xAxis, hdx, Real.arccos_zero]
      rw [this] at hx
      have hp1 : (0.1 : ℝ) < Real.pi / 2 := by
        have := Real.pi_gt_d6; norm_num at this ⊢; linarith
      have hp2 : Real.pi / 2 < 3.13 := by
        have := Real.pi_lt_d2; norm_num at this ⊢; linarith
      have : ¬(1 / 10 < |Real.pi / 2| ∧ |Real.pi / 2| < 313 / 100) := hx
      rw [abs_of_nonneg (by positivity)] at this
      push_neg at this
      have := this (by norm_num at hp1 ⊢; linarith)
      norm_num at this
      linarith
    have hpos : 0 < dot3 (cross3 a yAxis) (cross3 a yAxis) := by
      rw [cross3_lagrange, ha']
      have : dot3 yAxis yAxis = 1 := unit3_yAxis
      rw [this]
      nlinarith
    have hnz : vec_norm (cross3 a yAxis) ≠ 0 := vec_norm_ne_zero_of_dot_pos hpos
    refine ⟨_, unit3_normalize hnz, ?_, rotationMat_pi hnz⟩
    rw [dot3_div_left, dot3_cross3_left, zero_div]

/-- Axis/angle extraction recovers axis and angle of a unit-axis rotation
with angle strictly between `0` and `π`. -/
theorem to_axis_angle_rotationMat {u : V3} (h : unit3 u) {ψ : ℝ}
    (h0 : 0 < ψ) (hπ : ψ < Real.pi) :
    to_axis_angle (rotationMat ψ u) = (u, ψ) := by
  have harc : Real.arccos ((Matrix.trace (rotationMat ψ u) - 1) / 2) = ψ := by
    rw [rotationMat_trace h]
    have e : (1 + 2 * Real.cos ψ - 1) / 2 = Real.cos ψ := by ring
    rw [e, Real.arccos_cos h0.le hπ.le]
  have hsin : Real.sin ψ ≠ 0 := (Real.sin_pos_of_pos_of_lt_pi h0 hπ).ne.symm
  have hR := rotationMat_unit h ψ
  unfold to_axis_angle
  rw [harc]
  refine Prod.ext ?_ rfl
  funext i
  fin_cases i <;>
    simp [hR, Matrix.add_apply, Matrix.smul_apply, Matrix.one_apply,
      skew_mat, Matrix.vecMulVec_apply, smul_eq_mul] <;>
    (field_simp; ring)


/-! ## The joint record

One joint dictionary of the ADF document.  Optional fields model presence
or absence of the corresponding YAML keys.  The `'joint limits'` entry may
itself lack `'low'`/`'high'` (the continuous-joint case deletes just those
sub-keys), hence the nested options. -/

structure JointRecord where
  name : String
  parent : String
  child : String
  typ : Option String
  parentPivot : Option V3
  parentAxis : Option V3
  childPivot : Option V3
  childAxis : Option V3
  offset : Option ℝ
  detached : Option Bool
  redundant : Option Bool
  jointLimits : Option (Option ℝ × Option ℝ)
  damping : Option ℝ
  stiffness : Option ℝ
  controller : Option (ℝ × ℝ × ℝ)
  maxMotorImpulse : Option ℝ
  enableFeedback : Option Bool
  passive : Option Bool
  bodyRotation : Option M3

/-- The `JointTemplate` defaults of the source. -/
def jointTemplate : JointRecord where
  name := ""
  parent := ""
  child := ""
  typ := none
  parentPivot := some ![0, 0, 0]
  parentAxis := some ![0, 0, 0]
  childPivot := some ![0, 0, 0]
  childAxis := some ![0, 0, 0]
  offset := none
  detached := none
  redundant := none
  jointLimits := some (some (-1.2), some 1.2)
  damping := none
  stiffness := none
  controller := some (1000, 0, 1)
  maxMotorImpulse := none
  enableFeedback := some false
  passive := some false
  bodyRotation := some 0

/-! ## String utilities of the source -/

/-- Python's `str.rfind`: highest index at which `sub` occurs in `s`, and
`-1` when it does not occur. -/
def py_rfind (sub s : String) : ℤ :=
  match ((List.range (s.length + 1)).filter
      (fun i => (s.data.drop i).take sub.data.length = sub.data)).getLast? with
  | some i => (i : ℤ)
  | none => -1

/-- The source's `remove_namespace_prefix` (note the strict `> 0` test: a
leading slash is not stripped). -/
def remove_namespace_prefix (full_name : String) : String :=
  if 0 < py_rfind "/" full_name then
    String.mk (full_name.data.drop ((py_rfind "/" full_name).toNat + 1))
  else full_name

/-- `CommonConfig.detached_joint_prefix`. -/
def detached_joint_prefix : List String :=
  ["redundant", "Redundant", "REDUNDANT", "detached", "Detached", "DETACHED"]

/-- The detached-name test used on export and on legacy import: some prefix
string has its last occurrence at position `0` of the name. -/
def has_detached_prefix (joint_name : String) : Bool :=
  detached_joint_prefix.any (fun p => py_rfind p joint_name = 0)

/-! ## JointClassifier -/

/-- The source's `get_blender_joint_type`: note the initial `'HINGE'`
default that survives an unrecognized `'type'` string. -/
def get_blender_joint_type (jd : JointRecord) : String :=
  match jd.typ with
  | none => "HINGE"
  | some t =>
    if t = "hinge" ∨ t = "revolute" ∨ t = "continuous" then "HINGE"
    else if t = "prismatic" ∨ t = "slider" then "SLIDER"
    else if t = "spring" ∨ t = "linear spring" ∨ t = "angular spring"
        ∨ t = "torsional spring" ∨ t = "torsion spring" then "GENERIC_SPRING"
    else if t = "p2p" ∨ t = "point2point" then "POINT"
    else if t = "fixed" ∨ t = "FIXED" then "FIXED"
    else "HINGE"

/-- The source's `get_ambf_joint_type`: note the initial `'FIXED'` default
that survives an unrecognized `'type'` string. -/
def get_ambf_joint_type (jd : JointRecord) : String :=
  match jd.typ with
  | none => "FIXED"
  | some t =>
    if t = "hinge" ∨ t = "revolute" ∨ t = "continuous" then "REVOLUTE"
    else if t = "prismatic" ∨ t = "slider" then "PRISMATIC"
    else if t = "spring" ∨ t = "linear spring" then "LINEAR_SPRING"
    else if t = "angular spring" ∨ t = "torsional spring"
        ∨ t = "torsion spring" then "TORSION_SPRING"
    else if t = "p2p" ∨ t = "point2point" then "P2P"
    else if t = "fixed" ∨ t = "FIXED" then "FIXED"
    else "FIXED"

/-- The recognized joint-kind vocabulary (union of all match lists). -/
def recognizedKinds : List String :=
  ["hinge", "revolute", "continuous", "prismatic", "slider", "spring",
   "linear spring", "angular spring", "torsional spring", "torsion spring",
   "p2p", "point2point", "fixed", "FIXED"]

/-- The source's `is_detached_joint`: either the `'redundant'` or the
`'detached'` field marks the record (the string form `'True'` of the flag is
absorbed into the Bool model). -/
def is_detached_joint (jd : JointRecord) : Bool :=
  (jd.redundant = some true) ∨ (jd.detached = some true)

/-! ## PoseComposer (import path) -/

/-- The source's `get_parent_pivot_and_axis_data`: absent fields default to
pivot `(0,0,0)` and axis `(0,0,1)`. -/
def get_parent_pivot_and_axis_data (jd : JointRecord) : V3 × V3 :=
  (jd.parentPivot.getD ![0, 0, 0], jd.parentAxis.getD ![0, 0, 1])

/-- The source's `get_child_pivot_and_axis_data`: absent fields default to
pivot `(0,0,0)` and axis `(0,0,1)`. -/
def get_child_pivot_and_axis_data (jd : JointRecord) : V3 × V3 :=
  (jd.childPivot.getD ![0, 0, 0], jd.childAxis.getD ![0, 0, 1])

/-- The source's `get_standard_pivot_and_axis_data`: canonical pivot/axis by
joint kind; an unrecognized kind logs an error and falls through to the
initial `Z` default.  A record without a `'type'` key would raise in the
source; the model returns the same initial default. -/
def get_standard_pivot_and_axis_data (jd : JointRecord) : V3 × V3 :=
  match jd.typ with
  | none => (![0, 0, 0], ![0, 0, 1])
  | some t =>
    if t = "hinge" ∨ t = "continuous" ∨ t = "revolute" ∨ t = "fixed" then
      (![0, 0, 0], ![0, 0, 1])
    else if t = "prismatic" ∨ t = "slider" then (![0, 0, 0], ![1, 0, 0])
    else if t = "spring" ∨ t = "linear spring" then (![0, 0, 0], ![1, 0, 0])
    else if t = "angular spring" ∨ t = "torsional spring"
        ∨ t = "torsion spring" then (![0, 0, 0], ![0, 0, 1])
    else if t = "p2p" ∨ t = "point2point" then (![0, 0, 0], ![0, 0, 1])
    else (![0, 0, 0], ![0, 0, 1])

/-- The source's `get_joint_offset_angle`: `0` when offsets are ignored by
scene option or the field is absent. -/
def get_joint_offset_angle (ignore_offsets : Bool) (jd : JointRecord) : ℝ :=
  if ignore_offsets then 0 else jd.offset.getD 0

/-- The source's `get_joint_in_world_transform`.  `T_p_w` is the parent
body's world transform, `T_p_w_off` its accumulated `_body_T_j_c`
correction. -/
def get_joint_in_world_transform (T_p_w T_p_w_off : Tf) (ignore_offsets : Bool)
    (jd : JointRecord) : Tf :=
  T_p_w * T_p_w_off * transl (get_parent_pivot_and_axis_data jd).1
    * Tf.mk (rotationMat (get_joint_offset_angle ignore_offsets jd)
        (get_parent_pivot_and_axis_data jd).2) ![0, 0, 0]
    * Tf.mk (get_rot_mat_from_vecs (get_standard_pivot_and_axis_data jd).2
        (get_parent_pivot_and_axis_data jd).2).1 ![0, 0, 0]

/-- The source's `get_child_in_world_transform`. -/
def get_child_in_world_transform (T_p_w T_p_w_off : Tf) (ignore_offsets : Bool)
    (jd : JointRecord) : Tf :=
  T_p_w * T_p_w_off * transl (get_parent_pivot_and_axis_data jd).1
    * Tf.mk (rotationMat (get_joint_offset_angle ignore_offsets jd)
        (get_parent_pivot_and_axis_data jd).2) ![0, 0, 0]
    * Tf.mk (get_rot_mat_from_vecs (get_child_pivot_and_axis_data jd).2
        (get_parent_pivot_and_axis_data jd).2).1 ![0, 0, 0]
    * (transl (get_child_pivot_and_axis_data jd).1).inv


/-! ## PoseExtractor (export path) -/

/-- `math.radians`. -/
def radians (x : ℝ) : ℝ := x * Real.pi / 180

/-- Componentwise `round(·, 4)` of a 3×3 matrix (the `'body rotation'`
emission). -/
def round4M (R : M3) : M3 := fun i j => round4 (R i j)

/-- The source's `compute_body_pivot_and_axis` on scale-free transforms:
pivot is the translation of child-in-parent, axis the rotated constraint
axis (the `w = 0` fourth component drops the translation). -/
def compute_body_pivot_and_axis (parent child : Tf) (constraint_axis : V3) :
    V3 × V3 :=
  ((parent.inv * child).t, (parent.inv * child).R.mulVec constraint_axis)

/-- A Blender object as the export path sees it (world transform, `EMPTY`
flag, visibility, and the custom per-joint controller properties). -/
structure BObj where
  name : String
  tf : Tf
  isEmpty : Bool
  hidden : Bool
  enableJointProps : Bool
  jointControllerP : ℝ
  jointControllerI : ℝ
  jointControllerD : ℝ
  jointDamping : ℝ

/-- The fields of a Blender `rigid_body_constraint` read by the export
path. -/
structure BCon where
  typ : String
  object1 : Option BObj
  object2 : Option BObj
  use_limit_lin_x : Bool
  use_limit_lin_y : Bool
  use_limit_lin_z : Bool
  use_limit_ang_x : Bool
  use_limit_ang_y : Bool
  use_limit_ang_z : Bool
  limit_lin_x_lower : ℝ
  limit_lin_x_upper : ℝ
  limit_lin_y_lower : ℝ
  limit_lin_y_upper : ℝ
  limit_lin_z_lower : ℝ
  limit_lin_z_upper : ℝ
  limit_ang_x_lower : ℝ
  limit_ang_x_upper : ℝ
  limit_ang_y_lower : ℝ
  limit_ang_y_upper : ℝ
  limit_ang_z_lower : ℝ
  limit_ang_z_upper : ℝ
  use_spring_x : Bool
  use_spring_y : Bool
  use_spring_z : Bool
  use_spring_ang_x : Bool
  use_spring_ang_y : Bool
  use_spring_ang_z : Bool
  spring_damping_x : ℝ
  spring_damping_y : ℝ
  spring_damping_z : ℝ
  spring_damping_ang_x : ℝ
  spring_damping_ang_y : ℝ
  spring_damping_ang_z : ℝ
  spring_stiffness_x : ℝ
  spring_stiffness_y : ℝ
  spring_stiffness_z : ℝ
  spring_stiffness_ang_x : ℝ
  spring_stiffness_ang_y : ℝ
  spring_stiffness_ang_z : ℝ

/-- The source's `get_default_axis_of_blender_constraint`.  For a type
outside the six handled ones the source would raise (unbound local); the
model returns `Z`, unreachable through the generator below. -/
def get_default_axis_of_blender_constraint (con : BCon) : V3 :=
  if con.typ = "HINGE" ∨ con.typ = "POINT" ∨ con.typ = "FIXED" then ![0, 0, 1]
  else if con.typ = "SLIDER" then ![1, 0, 0]
  else if con.typ = "GENERIC" ∨ con.typ = "GENERIC_SPRING" then
    (if con.use_limit_lin_x ∨ con.use_limit_ang_x then ![1, 0, 0]
     else if con.use_limit_lin_y ∨ con.use_limit_ang_y then ![0, 1, 0]
     else if con.use_limit_lin_z ∨ con.use_limit_ang_z then ![0, 0, 1]
     else ![0, 0, 1])
  else ![0, 0, 1]

/-- Final `'joint limits'` bookkeeping shared by the tail of
`assign_joint_params_from_blender_constraint`: fixed/p2p delete the entry,
continuous deletes only its sub-keys, every other kind stores the rounded
bounds.  A missing kind or missing bounds would raise in the source; the
model leaves the record unchanged (unreachable through the callers
below). -/
def bc_finish (jd : JointRecord) (lohi : Option (ℝ × ℝ)) : JointRecord :=
  match jd.typ with
  | some t =>
    if t = "fixed" ∨ t = "p2p" then { jd with jointLimits := none }
    else if t = "continuous" then { jd with jointLimits := some (none, none) }
    else
      match lohi with
      | some lh => { jd with jointLimits := some (some (round4 lh.1), some (round4 lh.2)) }
      | none => jd
  | none => jd

/-- The source's `assign_joint_params_from_blender_constraint`. -/
def assign_joint_params_from_blender_constraint (con : BCon) (jd : JointRecord) :
    JointRecord :=
  if con.typ = "HINGE" then
    (if con.use_limit_ang_z then
       bc_finish { jd with typ := some "revolute" }
         (some (con.limit_ang_z_lower, con.limit_ang_z_upper))
     else bc_finish { jd with typ := some "continuous" } none)
  else if con.typ = "SLIDER" then
    bc_finish { jd with typ := some "prismatic" }
      (some (con.limit_lin_x_lower, con.limit_lin_x_upper))
  else if con.typ = "GENERIC" then
    (if con.use_limit_lin_x then
       bc_finish { jd with typ := some "prismatic" }
         (some (con.limit_lin_x_lower, con.limit_lin_x_upper))
     else if con.use_limit_lin_y then
       bc_finish { jd with typ := some "prismatic" }
         (some (con.limit_lin_y_lower, con.limit_lin_y_upper))
     else if con.use_limit_lin_z then
       bc_finish { jd with typ := some "prismatic" }
         (some (con.limit_lin_z_lower, con.limit_lin_z_upper))
     else if con.use_limit_ang_x then
       bc_finish { jd with typ := some "revolute" }
         (some (con.limit_ang_x_lower, con.limit_ang_x_upper))
     else if con.use_limit_ang_y then
       bc_finish { jd with typ := some "revolute" }
         (some (con.limit_ang_y_lower, con.limit_ang_y_upper))
     else if con.use_limit_ang_z then
       bc_finish { jd with typ := some "revolute" }
         (some (con.limit_ang_z_lower, con.limit_ang_z_upper))
     else bc_finish jd none)
  else if con.typ = "GENERIC_SPRING" then
    (if con.use_limit_lin_x then
       bc_finish { jd with
           typ := some "linear spring"
           damping := (if con.use_spring_x then some con.spring_damping_x else jd.damping)
           stiffness := (if con.use_spring_x then some con.spring_stiffness_x else jd.stiffness) }
         (some (con.limit_lin_x_lower, con.limit_lin_x_upper))
     else if con.use_limit_lin_y then
       bc_finish { jd with
           typ := some "linear spring"
           damping := (if con.use_spring_y then some con.spring_damping_y else jd.damping)
           stiffness := (if con.use_spring_y then some con.spring_stiffness_y else jd.stiffness) }
         (some (con.limit_lin_y_lower, con.limit_lin_y_upper))
     else if con.use_limit_lin_z then
       bc_finish { jd with
           typ := some "linear spring"
           damping := (if con.use_spring_z then some con.spring_damping_z else jd.damping)
           stiffness := (if con.use_spring_z then some con.spring_stiffness_z else jd.stiffness) }
         (some (con.limit_lin_z_lower, con.limit_lin_z_upper))
     else if con.use_limit_ang_x then
       bc_finish { jd with
           typ := some "torsion spring"
           damping := (if con.use_spring_ang_x then some con.spring_damping_ang_x else jd.damping)
           stiffness := (if con.use_spring_ang_x then some con.spring_stiffness_ang_x else jd.stiffness) }
         (some (con.limit_ang_x_lower, con.limit_ang_x_upper))
     else if con.use_limit_ang_y then
       bc_finish { jd with
           typ := some "torsion spring"
           damping := (if con.use_spring_ang_y then some con.spring_damping_ang_y else jd.damping)
           stiffness := (if con.use_spring_ang_y then some con.spring_stiffness_ang_y else jd.stiffness) }
         (some (con.limit_ang_y_lower, con.limit_ang_y_upper))
     else if con.use_limit_ang_z then
       bc_finish { jd with
           typ := some "torsion spring"
           damping := (if con.use_spring_ang_z then some con.spring_damping_ang_z else jd.damping)
           stiffness := (if con.use_spring_ang_z then some con.spring_stiffness_ang_z else jd.stiffness) }
         (some (con.limit_ang_z_lower, con.limit_ang_z_upper))
     else bc_finish jd none)
  else if con.typ = "POINT" then bc_finish { jd with typ := some "p2p" } none
  else if con.typ = "FIXED" then bc_finish { jd with typ := some "fixed" } none
  else bc_finish jd none

/-- The angular residue whose axis/angle decides the `'offset'` field:
`R_parent_to_child_ambf · R_child_to_parent_blender`. -/
def r_angular_offset (child_axis parent_axis : V3) (r_c_p_blender : M3) : M3 :=
  (rot_matrix_from_vecs child_axis parent_axis)⁻¹ * r_c_p_blender

/-- The `'offset'` computation shared verbatim by both export generators:
above the `0.01` rad threshold the rounded angle is emitted with the sign
given by the axis direction, and an axis neither parallel nor antiparallel
to the child axis is a consistency error (the `SHOULD'NT GET HERE`
print). -/
def joint_offset_result (child_axis parent_axis : V3) (r_c_p_blender : M3) :
    Option ℝ × Bool :=
  if 1 / 100 < |(to_axis_angle (r_angular_offset child_axis parent_axis r_c_p_blender)).2| then
    (if |1 - dot3 child_axis (to_axis_angle (r_angular_offset child_axis parent_axis r_c_p_blender)).1| < 1 / 10 then
       (some (round4 (to_axis_angle (r_angular_offset child_axis parent_axis r_c_p_blender)).2), false)
     else if |1 + dot3 child_axis (to_axis_angle (r_angular_offset child_axis parent_axis r_c_p_blender)).1| < 1 / 10 then
       (some (-(round4 (to_axis_angle (r_angular_offset child_axis parent_axis r_c_p_blender)).2)), false)
     else (none, true))
  else (none, false)

/-- Geometry core of `generate_joint_data_from_blender_constraint`: the
record built for one valid constraint, plus the consistency-error flag. -/
def gen_blender_core (joint_obj parent_obj child_obj : BObj) (con : BCon) :
    JointRecord × Bool :=
  (fun jd1 off =>
    ({ jd1 with
        offset := off.1
        controller :=
          if con.typ = "HINGE" ∨ con.typ = "SLIDER" ∨ con.typ = "GENERIC" then
            (if joint_obj.enableJointProps then
              some (round4 joint_obj.jointControllerP,
                    round4 joint_obj.jointControllerI,
                    round4 joint_obj.jointControllerD)
             else none)
          else jd1.controller
        damping :=
          if (con.typ = "HINGE" ∨ con.typ = "SLIDER" ∨ con.typ = "GENERIC")
              ∧ joint_obj.enableJointProps then
            some (round4 joint_obj.jointDamping)
          else jd1.damping }, off.2))
  (assign_joint_params_from_blender_constraint con
    { jointTemplate with
        name := remove_namespace_prefix parent_obj.name ++ "-"
          ++ remove_namespace_prefix child_obj.name
        parent := "BODY " ++ remove_namespace_prefix parent_obj.name
        child := "BODY " ++ remove_namespace_prefix child_obj.name
        detached :=
          if joint_obj.isEmpty
              ∧ has_detached_prefix ( remove_namespace_prefix joint_obj.name) then
            some true
          else none
        parentPivot := some (round4V
          (if joint_obj.isEmpty
              ∧ has_detached_prefix ( remove_namespace_prefix joint_obj.name) then
            (compute_body_pivot_and_axis parent_obj.tf joint_obj.tf
              (get_default_axis_of_blender_constraint con)).1
           else
            (compute_body_pivot_and_axis parent_obj.tf child_obj.tf
              (get_default_axis_of_blender_constraint con)).1))
        parentAxis := some (round4V
          (if joint_obj.isEmpty
              ∧ has_detached_prefix ( remove_namespace_prefix joint_obj.name) then
            (compute_body_pivot_and_axis parent_obj.tf joint_obj.tf
              (get_default_axis_of_blender_constraint con)).2
           else
            (compute_body_pivot_and_axis parent_obj.tf child_obj.tf
              (get_default_axis_of_blender_constraint con)).2))
        childPivot := some (round4V
          (if joint_obj.isEmpty
              ∧ has_detached_prefix ( remove_namespace_prefix joint_obj.name) then
            (compute_body_pivot_and_axis child_obj.tf joint_obj.tf
              (get_default_axis_of_blender_constraint con)).1
           else ![0, 0, 0]))
        childAxis := some (round4V
          (if joint_obj.isEmpty
              ∧ has_detached_prefix ( remove_namespace_prefix joint_obj.name) then
            (compute_body_pivot_and_axis child_obj.tf joint_obj.tf
              (get_default_axis_of_blender_constraint con)).2
           else get_default_axis_of_blender_constraint con)) })
  (joint_offset_result
    (if joint_obj.isEmpty
        ∧ has_detached_prefix ( remove_namespace_prefix joint_obj.name) then
      (compute_body_pivot_and_axis child_obj.tf joint_obj.tf
        (get_default_axis_of_blender_constraint con)).2
     else get_default_axis_of_blender_constraint con)
    (if joint_obj.isEmpty
        ∧ has_detached_prefix ( remove_namespace_prefix joint_obj.name) then
      (compute_body_pivot_and_axis parent_obj.tf joint_obj.tf
        (get_default_axis_of_blender_constraint con)).2
     else
      (compute_body_pivot_and_axis parent_obj.tf child_obj.tf
        (get_default_axis_of_blender_constraint con)).2)
    (parent_obj.tf.R⁻¹ * child_obj.tf.R))

/-- The source's `generate_joint_data_from_blender_constraint`: visibility
and constraint-type guards around `gen_blender_core`; `none` means no
record is emitted for this object.  A present `object1` with a missing
`object2` would raise in the source; the model also emits nothing. -/
def generate_joint_data_from_blender_constraint (joint_obj : BObj)
    (rbc : Option BCon) : Option (JointRecord × Bool) :=
  if joint_obj.hidden then none
  else
    match rbc with
    | none => none
    | some con =>
      if (match con.object1 with | some o => o.hidden | none => false) then none
      else if (match con.object2 with | some o => o.hidden | none => false) then none
      else if con.typ = "FIXED" ∨ con.typ = "HINGE" ∨ con.typ = "SLIDER"
          ∨ con.typ = "POINT" ∨ con.typ = "GENERIC" ∨ con.typ = "GENERIC_SPRING" then
        match con.object1, con.object2 with
        | some parent_obj, some child_obj =>
          some (gen_blender_core joint_obj parent_obj child_obj con)
        | _, _ => none
      else none


/-- An AMBF-constraint object (the non-legacy representation of a joint in
the editor), with the custom properties the export path reads. -/
structure AObj where
  name : String
  tf : Tf
  objectType : String
  hidden : Bool
  constraintName : String
  constraintParent : Option BObj
  constraintChild : Option BObj
  constraintAxis : String
  constraintType : String
  limitsEnable : Bool
  limitsLower : ℝ
  limitsHigher : ℝ
  maxMotorImpulse : ℝ
  stiffness : ℝ
  damping : ℝ
  enableControllerGains : Bool
  controllerP : ℝ
  controllerI : ℝ
  controllerD : ℝ
  enableFeedback : Bool
  passive : Bool

/-- The source's `get_axis_of_ambf_constraint`.  An axis string outside
`X`/`Y`/`Z` logs an error and would raise (unbound local); the model
returns `Z`, unreachable through the enum property. -/
def get_axis_of_ambf_constraint (joint_obj : AObj) : V3 :=
  if joint_obj.constraintAxis = "X" then ![1, 0, 0]
  else if joint_obj.constraintAxis = "Y" then ![0, 1, 0]
  else if joint_obj.constraintAxis = "Z" then ![0, 0, 1]
  else ![0, 0, 1]

/-- The source's `assign_joint_params_from_ambf_constraint`.  Note which
fields are rounded on emission and that `'max motor impulse'` is stored
raw. -/
def assign_joint_params_from_ambf_constraint (joint_obj : AObj)
    (jd : JointRecord) : JointRecord :=
  { jd with
      typ :=
        if joint_obj.constraintType = "REVOLUTE" then some "revolute"
        else if joint_obj.constraintType = "PRISMATIC" then some "prismatic"
        else if joint_obj.constraintType = "LINEAR_SPRING" then some "linear spring"
        else if joint_obj.constraintType = "TORSION_SPRING" then some "angular spring"
        else if joint_obj.constraintType = "FIXED" then some "fixed"
        else if joint_obj.constraintType = "P2P" then some "p2p"
        else jd.typ
      jointLimits :=
        if joint_obj.constraintType = "REVOLUTE"
            ∨ joint_obj.constraintType = "TORSION_SPRING" then
          (if joint_obj.limitsEnable then
            some (some (round4 (radians joint_obj.limitsLower)),
                  some (round4 (radians joint_obj.limitsHigher)))
           else none)
        else if joint_obj.constraintType = "PRISMATIC"
            ∨ joint_obj.constraintType = "LINEAR_SPRING" then
          (if joint_obj.limitsEnable then
            some (some (round4 joint_obj.limitsLower),
                  some (round4 joint_obj.limitsHigher))
           else none)
        else jd.jointLimits
      maxMotorImpulse :=
        if joint_obj.constraintType = "REVOLUTE"
            ∨ joint_obj.constraintType = "TORSION_SPRING"
            ∨ joint_obj.constraintType = "PRISMATIC"
            ∨ joint_obj.constraintType = "LINEAR_SPRING" then
          some joint_obj.maxMotorImpulse
        else jd.maxMotorImpulse
      stiffness :=
        if joint_obj.constraintType = "LINEAR_SPRING"
            ∨ joint_obj.constraintType = "TORSION_SPRING" then
          some (round4 joint_obj.stiffness)
        else none
      damping := some (round4 joint_obj.damping)
      controller :=
        if joint_obj.enableControllerGains then
          some (round4 joint_obj.controllerP, round4 joint_obj.controllerI,
                round4 joint_obj.controllerD)
        else none
      enableFeedback := some joint_obj.enableFeedback
      passive := some joint_obj.passive }

/-- Record core of `generate_joint_data_from_ambf_constraint` for a valid
constraint: both pivot/axis pairs are computed against the constraint
object itself, `'detached'` is set unconditionally, and the residual
`'body rotation'` is stored rounded. -/
def gen_ambf_core (joint_obj : AObj) (parent_obj child_obj : BObj) :
    JointRecord × Bool :=
  (fun jd1 off =>
    ({ jd1 with
        offset := off.1
        bodyRotation := some (round4M (parent_obj.tf.R⁻¹ * child_obj.tf.R)) }, off.2))
  (assign_joint_params_from_ambf_constraint joint_obj
    { jointTemplate with
        name :=
          if joint_obj.constraintName = "" then
            remove_namespace_prefix parent_obj.name ++ "-"
              ++ remove_namespace_prefix child_obj.name
          else joint_obj.constraintName
        parent := "BODY " ++ remove_namespace_prefix parent_obj.name
        child := "BODY " ++ remove_namespace_prefix child_obj.name
        detached := some true
        parentPivot := some (round4V
          (compute_body_pivot_and_axis parent_obj.tf joint_obj.tf
            (get_axis_of_ambf_constraint joint_obj)).1)
        parentAxis := some (round4V
          (compute_body_pivot_and_axis parent_obj.tf joint_obj.tf
            (get_axis_of_ambf_constraint joint_obj)).2)
        childPivot := some (round4V
          (compute_body_pivot_and_axis child_obj.tf joint_obj.tf
            (get_axis_of_ambf_constraint joint_obj)).1)
        childAxis := some (round4V
          (compute_body_pivot_and_axis child_obj.tf joint_obj.tf
            (get_axis_of_ambf_constraint joint_obj)).2) })
  (joint_offset_result
    (compute_body_pivot_and_axis child_obj.tf joint_obj.tf
      (get_axis_of_ambf_constraint joint_obj)).2
    (compute_body_pivot_and_axis parent_obj.tf joint_obj.tf
      (get_axis_of_ambf_constraint joint_obj)).2
    (parent_obj.tf.R⁻¹ * child_obj.tf.R))

/-- The source's `generate_joint_data_from_ambf_constraint` with its
validity guards; `none` means the constraint is skipped. -/
def generate_joint_data_from_ambf_constraint (joint_obj : AObj) :
    Option (JointRecord × Bool) :=
  if joint_obj.objectType ≠ "CONSTRAINT" then none
  else if joint_obj.hidden then none
  else
    match joint_obj.constraintParent, joint_obj.constraintChild with
    | some parent_obj, some child_obj =>
      if parent_obj.hidden ∨ child_obj.hidden then none
      else some (gen_ambf_core joint_obj parent_obj child_obj)
    | _, _ => none

/-! ## Import: loading joints and positioning bodies -/

/-- A loaded scene object: its Blender hierarchy parent (if any) and its
world transform. -/
structure LoadedObj where
  parentName : Option String
  tf : Tf

/-- The loaded scene, keyed by object name. -/
def World : Type := String → LoadedObj

/-- The source's `make_obj1_parent_of_obj2`: parenting happens only when
`obj2` has no parent yet, and `keep_transform=True` leaves the world
transform unchanged. -/
def make_obj1_parent_of_obj2 (w : World) (obj1 obj2 : String) : World :=
  if (w obj2).parentName = none then
    fun n => if n = obj2 then ⟨some obj1, (w obj2).tf⟩ else w n
  else w

/-- Object that `load_blender_joint` positions: the child body itself for
an attached joint, a freshly created empty for a detached one. -/
def get_blender_joint_handle_name (jd : JointRecord) : String :=
  if is_detached_joint jd then
    (if has_detached_prefix jd.name then jd.name
     else "detached joint " ++ jd.name)
  else jd.child

/-- The source's `load_blender_joint` (legacy path): the computed child
world transform is assigned unconditionally to the joint handle (the child
body itself when the joint is not detached). -/
def load_blender_joint (Tjc : String → Tf) (ignore_offsets : Bool)
    (jd : JointRecord) (w : World) : World :=
  make_obj1_parent_of_obj2
    (if is_detached_joint jd then
      (fun n => if n = get_blender_joint_handle_name jd then
        ⟨none, get_child_in_world_transform (w jd.parent).tf (Tjc jd.parent)
          ignore_offsets jd⟩
       else w n)
     else
      (fun n => if n = get_blender_joint_handle_name jd then
        ⟨(w n).parentName, get_child_in_world_transform (w jd.parent).tf
          (Tjc jd.parent) ignore_offsets jd⟩
       else w n))
    jd.parent (get_blender_joint_handle_name jd)

/-- The source's `load_ambf_joint`: a fresh empty named after the joint
gets the joint frame; the child body is positioned only when it has no
hierarchy parent yet; then parent → joint → child are linked. -/
def load_ambf_joint (Tjc : String → Tf) (ignore_offsets : Bool)
    (jd : JointRecord) (w : World) : World :=
  make_obj1_parent_of_obj2
    (make_obj1_parent_of_obj2
      ((fun w1 : World =>
        if (w1 jd.child).parentName = none then
          (fun n => if n = jd.child then
            ⟨(w1 jd.child).parentName,
             get_child_in_world_transform (w jd.parent).tf (Tjc jd.parent)
               ignore_offsets jd⟩
           else w1 n)
        else w1)
       (fun n => if n = jd.name then
          ⟨none, get_joint_in_world_transform (w jd.parent).tf (Tjc jd.parent)
            ignore_offsets jd⟩
        else w n))
      jd.parent jd.name)
    jd.name jd.child

/-! ## AxisAligner (`adjust_body_pivots_and_axis`) -/

/-- State of the axis-alignment pass: accumulated mesh-data transforms,
the `_body_T_j_c` correction map, and the trace of joints whose adjustment
body actually ran. -/
structure AdjustState where
  meshTf : String → Tf
  bodyTjc : String → Tf
  processed : List String

/-- The adjustment body run for one non-detached joint (source lines
2672–2752): compute `T_c_j` from the canonical axis, transform the child
mesh, record the correction, then the alignment-offset (AO) step about the
canonical axis.  The warning-only sanity print is not modelled; the record
field resets overwrite `'child pivot'`/`'child axis'` with the canonical
values and do not feed back into this state. -/
def adjust_one (isEmptyBody : String → Bool) (st : AdjustState)
    (jd : JointRecord) : AdjustState :=
  (fun T_c_j =>
    (fun d_axis d_angle0 =>
      (fun d_angle mesh1 =>
        if 1 / 10 < |d_angle| then
          { meshTf := fun n => if n = jd.child then
              Tf.mk (rotationMat d_angle (get_standard_pivot_and_axis_data jd).2)
                ![0, 0, 0] * mesh1 n
            else mesh1 n
            bodyTjc := fun n => if n = jd.child then
              Tf.mk (rotationMat d_angle (get_standard_pivot_and_axis_data jd).2)
                ![0, 0, 0] * T_c_j
            else st.bodyTjc n
            processed := st.processed ++ [jd.name] }
        else
          { meshTf := mesh1
            bodyTjc := fun n => if n = jd.child then T_c_j else st.bodyTjc n
            processed := st.processed ++ [jd.name] })
      (if d_axis 0 < 0 ∨ d_axis 1 < 0 ∨ d_axis 2 < 0 then -d_angle0 else d_angle0)
      (if isEmptyBody jd.child then st.meshTf
       else fun n => if n = jd.child then T_c_j * st.meshTf n else st.meshTf n))
    (round4V (to_axis_angle
      ((Tf.mk (get_rot_mat_from_vecs (get_standard_pivot_and_axis_data jd).2
          (get_parent_pivot_and_axis_data jd).2).1 ![0, 0, 0] * T_c_j).inv
        * Tf.mk (get_rot_mat_from_vecs (get_child_pivot_and_axis_data jd).2
            (get_parent_pivot_and_axis_data jd).2).1 ![0, 0, 0]).R).1)
    (to_axis_angle
      ((Tf.mk (get_rot_mat_from_vecs (get_standard_pivot_and_axis_data jd).2
          (get_parent_pivot_and_axis_data jd).2).1 ![0, 0, 0] * T_c_j).inv
        * Tf.mk (get_rot_mat_from_vecs (get_child_pivot_and_axis_data jd).2
            (get_parent_pivot_and_axis_data jd).2).1 ![0, 0, 0]).R).2)
  (Tf.mk (get_rot_mat_from_vecs (get_standard_pivot_and_axis_data jd).2
      (get_child_pivot_and_axis_data jd).2).1
    (get_child_pivot_and_axis_data jd).1).inv

/-- The source's `adjust_body_pivots_and_axis` loop over the document's
joints.  A record without `'child pivot'` is passed over; a detached record
hits a `return` statement that ends the whole pass, not just that
iteration. -/
def adjust_body_pivots_and_axis (isEmptyBody : String → Bool) :
    List JointRecord → AdjustState → AdjustState
  | [], st => st
  | jd :: rest, st =>
    if jd.childPivot.isSome then
      (if is_detached_joint jd then st
       else adjust_body_pivots_and_axis isEmptyBody rest
         (adjust_one isEmptyBody st jd))
    else adjust_body_pivots_and_axis isEmptyBody rest st


/-! ## HierarchyResolver

Bodies are numbered `0, …, n−1` in the enumeration order of
`bpy.data.objects`; the Blender tree-hierarchy parent pointer becomes
`parentOf`, and `obj.children` is the derived inverse relation in
enumeration order.  The source's unbounded parent-walk and recursion are
given explicit fuel; fuel `n` is exact for an acyclic forest on `n`
bodies. -/

/-- The source's `get_grand_parent`: walk parent links to the root. -/
def get_grand_parent (parentOf : ℕ → Option ℕ) : ℕ → ℕ → ℕ
  | 0, body => body
  | fuel + 1, body =>
    match parentOf body with
    | none => body
    | some p => get_grand_parent parentOf fuel p

/-- `obj.children`: the bodies whose structural parent is `b`. -/
def childrenOf (n : ℕ) (parentOf : ℕ → Option ℕ) (b : ℕ) : List ℕ :=
  (List.range n).filter (fun c => parentOf c = some b)

/-- The traversal state: the `_heirarchial_bodies_list` accumulator and the
`_added_bodies_list` flag dictionary. -/
structure TreeState where
  hlist : List ℕ
  added : ℕ → Bool

/-- The source's `downward_tree_pass`: append a not-yet-added body, mark
it, and recurse into its children. -/
def downward_tree_pass (n : ℕ) (parentOf : ℕ → Option ℕ) :
    ℕ → ℕ → TreeState → TreeState
  | 0, _, st => st
  | fuel + 1, body, st =>
    if st.added body then st
    else
      (childrenOf n parentOf body).foldl
        (fun acc c => downward_tree_pass n parentOf fuel c acc)
        ⟨st.hlist ++ [body], fun b => if b = body then true else st.added b⟩

/-- The source's `populate_heirarchial_tree`: for every body, run the
downward pass from its root. -/
def populate_heirarchial_tree (n : ℕ) (parentOf : ℕ → Option ℕ) : List ℕ :=
  ((List.range n).foldl
    (fun st b =>
      downward_tree_pass n parentOf n (get_grand_parent parentOf n b) st)
    ⟨[], fun _ => false⟩).hlist


/-! ## Small helper lemmas for evaluating the composer -/

theorem Tf.ext' {A B : Tf} (hR : A.R = B.R) (ht : A.t = B.t) : A = B := by
  cases A; cases B; cases hR; cases ht; rfl

theorem vec0_eq : (![0, 0, 0] : V3) = (0 : V3) := by
  funext i; fin_cases i <;> rfl

theorem funzero_eq : (fun _ : Fin 3 => (0 : ℝ)) = (0 : V3) := rfl

theorem round4V_zero_vec : round4V ![0, 0, 0] = ![0, 0, 0] := by
  funext i; fin_cases i <;> simp [round4V, round4_zero]

theorem round4V_yAxis : round4V ![0, 1, 0] = ![0, 1, 0] := by
  funext i; fin_cases i <;> simp [round4V, round4_zero, round4_one]

theorem Tf.mul_mk_one_zero (A : Tf) : A * Tf.mk 1 ![0, 0, 0] = A := by
  refine Tf.ext' ?_ ?_
  · simp [Tf.mul_R]
  · simp [Tf.mul_t, vec0_eq, funzero_eq, Matrix.mulVec_zero]

theorem Tf.one_mul' (A : Tf) : (1 : Tf) * A = A := by
  refine Tf.ext' ?_ ?_
  · simp [Tf.mul_R, Tf.one_def]
  · simp [Tf.mul_t, Tf.one_def, funzero_eq, Matrix.one_mulVec]

theorem Tf.mul_transl_zero (A : Tf) : A * transl ![0, 0, 0] = A := by
  refine Tf.ext' ?_ ?_
  · simp [Tf.mul_R, transl]
  · simp [Tf.mul_t, transl, vec0_eq, funzero_eq, Matrix.mulVec_zero]

theorem transl_zero_inv : (transl (![0, 0, 0] : V3)).inv = Tf.mk 1 ![0, 0, 0] := by
  refine Tf.ext' ?_ ?_
  · simp [transl, Tf.inv]
  · simp [transl, Tf.inv, vec0_eq, Matrix.one_mulVec]

theorem transl_mul_transl (a b : V3) : transl a * transl b = transl (a + b) := by
  refine Tf.ext' ?_ ?_
  · simp [transl, Tf.mul_R]
  · simp [transl, Tf.mul_t, Matrix.one_mulVec, add_comm]

/-- `angle3` of a unit vector with itself is `0`, so the axis/angle
rotation the composer builds from equal axes is the identity. -/
theorem get_rot_mat_from_vecs_self {a : V3} (ha : unit3 a) :
    (get_rot_mat_from_vecs a a).1 = 1 ∧ (get_rot_mat_from_vecs a a).2 = 0 := by
  constructor
  · show rotationMat (angle3 a a) (get_rot_mat_axis a a) = 1
    rw [angle3_self ha, rotationMat_zero]
  · show angle3 a a = 0
    exact angle3_self ha

/-! ## Claim C3 -/

def jdFrob : JointRecord := { jointTemplate with typ := some "frobnicate" }

/-- C3 counterexample: an unrecognized joint-kind string is not any kind of
hard error — both classifiers silently return their initial defaults, the
same answers they give for genuine `fixed` (resp. `hinge`) records. -/
theorem C3_counterexample :
    get_ambf_joint_type jdFrob = "FIXED"
    ∧ get_ambf_joint_type { jointTemplate with typ := some "fixed" } = "FIXED"
    ∧ get_blender_joint_type jdFrob = "HINGE"
    ∧ get_blender_joint_type { jointTemplate with typ := some "hinge" } = "HINGE"
    ∧ "frobnicate" ∉ recognizedKinds := by
  refine ⟨by decide, by decide, by decide, by decide, by decide⟩

/-- C3 amended: resolving an unrecognized joint-kind string is not an
error; `get_ambf_joint_type` silently defaults it to `FIXED` and
`get_blender_joint_type` to `HINGE`. -/
theorem C3_amended (jd : JointRecord) (s : String) (hs : jd.typ = some s)
    (hrec : s ∉ recognizedKinds) :
    get_ambf_joint_type jd = "FIXED" ∧ get_blender_joint_type jd = "HINGE" := by
  simp only [recognizedKinds, List.mem_cons, List.not_mem_nil, or_false,
    not_or] at hrec
  obtain ⟨h1, h2, h3, h4, h5, h6, h7, h8, h9, h10, h11, h12, h13, h14⟩ := hrec
  constructor
  · rw [get_ambf_joint_type, hs]
    simp [h1, h2, h3, h4, h5, h6, h7, h8, h9, h10, h11, h12, h13, h14]
  · rw [get_blender_joint_type, hs]
    simp [h1, h2, h3, h4, h5, h6, h7, h8, h9, h10, h11, h12, h13, h14]

/-- C3 amended, witness at the concrete record with kind
`"frobnicate"`. -/
theorem C3_amended_witness :
    get_ambf_joint_type jdFrob = "FIXED"
    ∧ get_blender_joint_type jdFrob = "HINGE" :=
  C3_amended jdFrob "frobnicate" rfl (by decide)

/-! ## Claim C5 -/

theorem adjust_one_processed (e : String → Bool) (st : AdjustState)
    (jd : JointRecord) :
    (adjust_one e st jd).processed = st.processed ++ [jd.name] := by
  unfold adjust_one
  dsimp only
  split_ifs <;> rfl

def jdDetached : JointRecord :=
  { jointTemplate with
      name := "detached joint loop"
      typ := some "revolute"
      detached := some true }

def jdOrdinary : JointRecord :=
  { jointTemplate with
      name := "j2"
      child := "linkB"
      typ := some "revolute"
      childAxis := some ![1, 0, 0] }

/-- C5: the pass does not skip-and-continue at a detached joint — the
`return` inside the loop ends the whole pass.  With a detached joint first
in the document, the later ordinary joint (which has a child pivot and is
not detached) is never adjusted; processed alone, it is. -/
theorem C5_detached_return_aborts_pass :
    (adjust_body_pivots_and_axis (fun _ => false) [jdDetached, jdOrdinary]
      ⟨fun _ => 1, fun _ => 1, []⟩).processed = []
    ∧ is_detached_joint jdDetached = true
    ∧ jdOrdinary.childPivot.isSome = true
    ∧ is_detached_joint jdOrdinary = false
    ∧ (adjust_body_pivots_and_axis (fun _ => false) [jdOrdinary]
        ⟨fun _ => 1, fun _ => 1, []⟩).processed = ["j2"] := by
  refine ⟨rfl, by decide, by decide, by decide, ?_⟩
  show (adjust_body_pivots_and_axis (fun _ => false) []
      (adjust_one (fun _ => false) ⟨fun _ => 1, fun _ => 1, []⟩ jdOrdinary)).processed = ["j2"]
  rw [adjust_body_pivots_and_axis, adjust_one_processed]
  rfl

/-! ## Claim C10 -/

/-- C10: a joint record missing its pivot/axis fields defaults to pivots
`(0,0,0)` and axes `(0,0,1)`, and both world-transform compositions behave
exactly as if those defaults had been stored. -/
theorem C10_missing_pivot_axis_defaults (jd : JointRecord)
    (hpp : jd.parentPivot = none) (hpa : jd.parentAxis = none)
    (hcp : jd.childPivot = none) (hca : jd.childAxis = none) :
    get_parent_pivot_and_axis_data jd = (![0, 0, 0], ![0, 0, 1])
    ∧ get_child_pivot_and_axis_data jd = (![0, 0, 0], ![0, 0, 1])
    ∧ (∀ T_p_w T_p_w_off ig,
        get_child_in_world_transform T_p_w T_p_w_off ig jd
          = get_child_in_world_transform T_p_w T_p_w_off ig
              { jd with parentPivot := some ![0, 0, 0]
                        parentAxis := some ![0, 0, 1]
                        childPivot := some ![0, 0, 0]
                        childAxis := some ![0, 0, 1] })
    ∧ (∀ T_p_w T_p_w_off ig,
        get_joint_in_world_transform T_p_w T_p_w_off ig jd
          = get_joint_in_world_transform T_p_w T_p_w_off ig
              { jd with parentPivot := some ![0, 0, 0]
                        parentAxis := some ![0, 0, 1]
                        childPivot := some ![0, 0, 0]
                        childAxis := some ![0, 0, 1] }) := by
  refine ⟨?_, ?_, ?_, ?_⟩
  · simp [get_parent_pivot_and_axis_data, hpp, hpa]
  · simp [get_child_pivot_and_axis_data, hcp, hca]
  · intro T_p_w T_p_w_off ig
    simp [get_child_in_world_transform, get_parent_pivot_and_axis_data,
      get_child_pivot_and_axis_data, get_joint_offset_angle,
      get_standard_pivot_and_axis_data, hpp, hpa, hcp, hca]
  · intro T_p_w T_p_w_off ig
    simp [get_joint_in_world_transform, get_parent_pivot_and_axis_data,
      get_child_pivot_and_axis_data, get_joint_offset_angle,
      get_standard_pivot_and_axis_data, hpp, hpa, hcp, hca]

def jdBare : JointRecord :=
  { jointTemplate with
      name := "jx"
      typ := some "revolute"
      parentPivot := none
      parentAxis := none
      childPivot := none
      childAxis := none }

/-- C10 witness at a concrete record with all four fields absent. -/
theorem C10_missing_pivot_axis_defaults_witness :
    get_parent_pivot_and_axis_data jdBare = (![0, 0, 0], ![0, 0, 1])
    ∧ get_child_pivot_and_axis_data jdBare = (![0, 0, 0], ![0, 0, 1]) :=
  ⟨(C10_missing_pivot_axis_defaults jdBare rfl rfl rfl rfl).1,
   (C10_missing_pivot_axis_defaults jdBare rfl rfl rfl rfl).2.1⟩


/-! ## Field-bookkeeping lemmas for the export generators -/

theorem bc_finish_detached (jd : JointRecord) (lohi : Option (ℝ × ℝ)) :
    (bc_finish jd lohi).detached = jd.detached := by
  unfold bc_finish
  cases htyp : jd.typ with
  | none => rfl
  | some t =>
    cases lohi with
    | none => dsimp only; split_ifs <;> rfl
    | some lh => dsimp only; split_ifs <;> rfl

theorem bc_finish_childPivot (jd : JointRecord) (lohi : Option (ℝ × ℝ)) :
    (bc_finish jd lohi).childPivot = jd.childPivot := by
  unfold bc_finish
  cases htyp : jd.typ with
  | none => rfl
  | some t =>
    cases lohi with
    | none => dsimp only; split_ifs <;> rfl
    | some lh => dsimp only; split_ifs <;> rfl

theorem bc_finish_childAxis (jd : JointRecord) (lohi : Option (ℝ × ℝ)) :
    (bc_finish jd lohi).childAxis = jd.childAxis := by
  unfold bc_finish
  cases htyp : jd.typ with
  | none => rfl
  | some t =>
    cases lohi with
    | none => dsimp only; split_ifs <;> rfl
    | some lh => dsimp only; split_ifs <;> rfl

theorem bc_finish_parentPivot (jd : JointRecord) (lohi : Option (ℝ × ℝ)) :
    (bc_finish jd lohi).parentPivot = jd.parentPivot := by
  unfold bc_finish
  cases htyp : jd.typ with
  | none => rfl
  | some t =>
    cases lohi with
    | none => dsimp only; split_ifs <;> rfl
    | some lh => dsimp only; split_ifs <;> rfl

theorem bc_finish_parentAxis (jd : JointRecord) (lohi : Option (ℝ × ℝ)) :
    (bc_finish jd lohi).parentAxis = jd.parentAxis := by
  unfold bc_finish
  cases htyp : jd.typ with
  | none => rfl
  | some t =>
    cases lohi with
    | none => dsimp only; split_ifs <;> rfl
    | some lh => dsimp only; split_ifs <;> rfl

theorem bc_finish_name (jd : JointRecord) (lohi : Option (ℝ × ℝ)) :
    (bc_finish jd lohi).name = jd.name := by
  unfold bc_finish
  cases htyp : jd.typ with
  | none => rfl
  | some t =>
    cases lohi with
    | none => dsimp only; split_ifs <;> rfl
    | some lh => dsimp only; split_ifs <;> rfl

set_option maxHeartbeats 1600000 in
theorem assign_blender_detached (con : BCon) (jd : JointRecord) :
    (assign_joint_params_from_blender_constraint con jd).detached = jd.detached := by
  unfold assign_joint_params_from_blender_constraint
  simp only [apply_ite JointRecord.detached, bc_finish_detached]
  simp only [ite_self]

set_option maxHeartbeats 1600000 in
theorem assign_blender_childPivot (con : BCon) (jd : JointRecord) :
    (assign_joint_params_from_blender_constraint con jd).childPivot
      = jd.childPivot := by
  unfold assign_joint_params_from_blender_constraint
  simp only [apply_ite JointRecord.childPivot, bc_finish_childPivot]
  simp only [ite_self]

set_option maxHeartbeats 1600000 in
theorem assign_blender_childAxis (con : BCon) (jd : JointRecord) :
    (assign_joint_params_from_blender_constraint con jd).childAxis
      = jd.childAxis := by
  unfold assign_joint_params_from_blender_constraint
  simp only [apply_ite JointRecord.childAxis, bc_finish_childAxis]
  simp only [ite_self]

set_option maxHeartbeats 1600000 in
theorem assign_blender_parentPivot (con : BCon) (jd : JointRecord) :
    (assign_joint_params_from_blender_constraint con jd).parentPivot
      = jd.parentPivot := by
  unfold assign_joint_params_from_blender_constraint
  simp only [apply_ite JointRecord.parentPivot, bc_finish_parentPivot]
  simp only [ite_self]

set_option maxHeartbeats 1600000 in
theorem assign_blender_parentAxis (con : BCon) (jd : JointRecord) :
    (assign_joint_params_from_blender_constraint con jd).parentAxis
      = jd.parentAxis := by
  unfold assign_joint_params_from_blender_constraint
  simp only [apply_ite JointRecord.parentAxis, bc_finish_parentAxis]
  simp only [ite_self]

theorem round4V_default_axis (con : BCon) :
    round4V (get_default_axis_of_blender_constraint con)
      = get_default_axis_of_blender_constraint con := by
  unfold get_default_axis_of_blender_constraint
  split_ifs <;> (funext i; fin_cases i <;> simp [round4V, round4_zero, round4_one])

/-- Projection facts of the blender generator core around the
branch on detachedness. -/
theorem gen_blender_core_detached (j p c : BObj) (con : BCon) :
    (gen_blender_core j p c con).1.detached
      = (if j.isEmpty ∧ has_detached_prefix ( remove_namespace_prefix j.name)
         then some true else none) := by
  show (assign_joint_params_from_blender_constraint con _).detached = _
  rw [assign_blender_detached]

theorem gen_blender_core_childPivot (j p c : BObj) (con : BCon) :
    (gen_blender_core j p c con).1.childPivot
      = some (round4V
          (if j.isEmpty ∧ has_detached_prefix ( remove_namespace_prefix j.name)
           then (compute_body_pivot_and_axis c.tf j.tf
              (get_default_axis_of_blender_constraint con)).1
           else ![0, 0, 0])) := by
  show (assign_joint_params_from_blender_constraint con _).childPivot = _
  rw [assign_blender_childPivot]

theorem gen_blender_core_childAxis (j p c : BObj) (con : BCon) :
    (gen_blender_core j p c con).1.childAxis
      = some (round4V
          (if j.isEmpty ∧ has_detached_prefix ( remove_namespace_prefix j.name)
           then (compute_body_pivot_and_axis c.tf j.tf
              (get_default_axis_of_blender_constraint con)).2
           else get_default_axis_of_blender_constraint con)) := by
  show (assign_joint_params_from_blender_constraint con _).childAxis = _
  rw [assign_blender_childAxis]

theorem gen_ambf_core_detached (j : AObj) (p c : BObj) :
    (gen_ambf_core j p c).1.detached = some true := rfl

theorem gen_ambf_core_childPivot (j : AObj) (p c : BObj) :
    (gen_ambf_core j p c).1.childPivot
      = some (round4V (compute_body_pivot_and_axis c.tf j.tf
          (get_axis_of_ambf_constraint j)).1) := rfl

theorem gen_ambf_core_maxMotorImpulse (j : AObj) (p c : BObj) :
    (gen_ambf_core j p c).1.maxMotorImpulse
      = (assign_joint_params_from_ambf_constraint j jointTemplate).maxMotorImpulse := rfl

/-! ## Claim C6 -/

def bP6 : BObj :=
  ⟨"base", 1, false, false, false, 0, 0, 0, 0⟩

def bC6 : BObj :=
  ⟨"link", transl ![1, 0, 0], false, false, false, 0, 0, 0, 0⟩

def aObj6 : AObj :=
  ⟨"j6", transl ![3, 0, 0], "CONSTRAINT", false, "j6", some bP6, some bC6,
   "Z", "REVOLUTE", false, 0, 0, 0, 0, 0, false, 0, 0, 0, false, false⟩

theorem transl_inv_mul (a b : V3) :
    (transl a).inv * transl b = transl (b - a) := by
  rw [transl_inv, transl_mul_transl]
  congr 1
  funext i
  simp [Pi.add_apply, Pi.neg_apply, Pi.sub_apply]
  ring

/-- C6 counterexample: the AMBF-constraint export path marks an ordinary
attached joint `detached: true` and stores a nonzero child pivot computed
against the constraint object, contradicting the claimed equivalence
between the `detached` flag and closed-loop joints. -/
theorem C6_counterexample :
    (gen_ambf_core aObj6 bP6 bC6).1.detached = some true
    ∧ has_detached_prefix "j6" = false
    ∧ (gen_ambf_core aObj6 bP6 bC6).1.childPivot = some ![2, 0, 0]
    ∧ (![2, 0, 0] : V3) ≠ ![0, 0, 0] := by
  refine ⟨gen_ambf_core_detached aObj6 bP6 bC6, by decide, ?_, ?_⟩
  · rw [gen_ambf_core_childPivot]
    have h1 : bC6.tf = transl ![1, 0, 0] := rfl
    have h2 : aObj6.tf = transl ![3, 0, 0] := rfl
    have hpiv : (compute_body_pivot_and_axis bC6.tf aObj6.tf
        (get_axis_of_ambf_constraint aObj6)).1 = ![2, 0, 0] := by
      rw [compute_body_pivot_and_axis, h1, h2, transl_inv_mul]
      show (![3, 0, 0] : V3) - ![1, 0, 0] = ![2, 0, 0]
      funext i; fin_cases i <;> norm_num
    rw [hpiv]
    congr 1
    funext i
    fin_cases i <;>
      simp [round4V, round4_zero, round4_of_int (x := (2 : ℝ)) 20000 (by norm_num)]
  · intro h
    have := congrFun h 0
    simp at this

/-- C6 amended: in the legacy Blender-constraint export path the claim
does hold — `detached: true` is emitted exactly for prefix-marked empty
joint objects, non-detached joints store child pivot `(0,0,0)` and the
nominal constraint axis, and detached ones store both pivot/axis pairs
computed against the joint-marker object; the AMBF-constraint export path
however emits `detached: true` unconditionally and always computes both
pivot/axis pairs against the constraint object. -/
theorem C6_amended :
    (∀ (j p c : BObj) (con : BCon),
      ¬(j.isEmpty ∧ has_detached_prefix ( remove_namespace_prefix j.name)) →
        (gen_blender_core j p c con).1.detached = none
        ∧ (gen_blender_core j p c con).1.childPivot = some ![0, 0, 0]
        ∧ (gen_blender_core j p c con).1.childAxis
            = some (get_default_axis_of_blender_constraint con))
    ∧ (∀ (j p c : BObj) (con : BCon),
      (j.isEmpty ∧ has_detached_prefix ( remove_namespace_prefix j.name)) →
        (gen_blender_core j p c con).1.detached = some true
        ∧ (gen_blender_core j p c con).1.childPivot
            = some (round4V (compute_body_pivot_and_axis c.tf j.tf
                (get_default_axis_of_blender_constraint con)).1)
        ∧ (gen_blender_core j p c con).1.childAxis
            = some (round4V (compute_body_pivot_and_axis c.tf j.tf
                (get_default_axis_of_blender_constraint con)).2))
    ∧ (∀ (j : AObj) (p c : BObj), (gen_ambf_core j p c).1.detached = some true) := by
  refine ⟨?_, ?_, fun j p c => gen_ambf_core_detached j p c⟩
  · intro j p c con h
    refine ⟨?_, ?_, ?_⟩
    · rw [gen_blender_core_detached, if_neg h]
    · rw [gen_blender_core_childPivot, if_neg h, round4V_zero_vec]
    · rw [gen_blender_core_childAxis, if_neg h, round4V_default_axis]
  · intro j p c con h
    exact ⟨by rw [gen_blender_core_detached, if_pos h],
           by rw [gen_blender_core_childPivot, if_pos h],
           by rw [gen_blender_core_childAxis, if_pos h]⟩

/-- C6 amended, witness: a non-detached legacy joint (plain mesh object,
no prefix) gets `detached` absent and child pivot `(0,0,0)`; the ambf
constraint `aObj6` gets `detached: true`. -/
theorem C6_amended_witness :
    (gen_blender_core bC6 bP6 bC6
        ⟨"HINGE", some bP6, some bC6, false, false, false, false, false, false,
         0, 0, 0, 0, 0, 0, 0, 0, 0, 0, 0, 0, false, false, false, false, false,
         false, 0, 0, 0, 0, 0, 0, 0, 0, 0, 0, 0, 0⟩).1.detached = none
    ∧ (gen_ambf_core aObj6 bP6 bC6).1.detached = some true := by
  constructor
  · exact (C6_amended.1 bC6 bP6 bC6 _ (by decide)).1
  · exact C6_amended.2.2 aObj6 bP6 bC6

theorem bc_finish_damping (jd : JointRecord) (lohi : Option (ℝ × ℝ)) :
    (bc_finish jd lohi).damping = jd.damping := by
  unfold bc_finish
  cases htyp : jd.typ with
  | none => rfl
  | some t =>
    cases lohi with
    | none => dsimp only; split_ifs <;> rfl
    | some lh => dsimp only; split_ifs <;> rfl

theorem bc_finish_stiffness (jd : JointRecord) (lohi : Option (ℝ × ℝ)) :
    (bc_finish jd lohi).stiffness = jd.stiffness := by
  unfold bc_finish
  cases htyp : jd.typ with
  | none => rfl
  | some t =>
    cases lohi with
    | none => dsimp only; split_ifs <;> rfl
    | some lh => dsimp only; split_ifs <;> rfl

/-! ## Claim C9 -/

def aObj9 : AObj :=
  ⟨"jm", 1, "CONSTRAINT", false, "jm", some bP6, some bC6, "Z", "REVOLUTE",
   false, 0, 0, 1 / 100000, 0, 0, false, 0, 0, 0, false, false⟩

theorem round4_of_small : round4 (1 / 100000 : ℝ) = 0 := by
  have hx : (1 / 100000 : ℝ) * 10 ^ 4 = 1 / 10 := by norm_num
  have hfl : ⌊(1 / 10 : ℝ)⌋ = 0 := by
    rw [Int.floor_eq_zero_iff]
    constructor <;> norm_num
  unfold round4
  rw [hx, hfl]
  rw [if_pos (by norm_num : (1 / 10 : ℝ) - ((0 : ℤ) : ℝ) < 1 / 2)]
  norm_num

/-- C9 counterexample: the `'max motor impulse'` field of an exported
joint record is written raw; at `10⁻⁵` the emitted value differs from its
4-decimal rounding (which is `0`). -/
theorem C9_counterexample :
    (gen_ambf_core aObj9 bP6 bC6).1.maxMotorImpulse = some (1 / 100000 : ℝ)
    ∧ round4 (1 / 100000 : ℝ) = 0
    ∧ some (1 / 100000 : ℝ) ≠ some (round4 (1 / 100000 : ℝ)) := by
  refine ⟨?_, round4_of_small, ?_⟩
  · rw [gen_ambf_core_maxMotorImpulse]
    simp [assign_joint_params_from_ambf_constraint, aObj9]
  · rw [round4_of_small]
    intro h
    rw [Option.some_inj] at h
    norm_num at h

/-- C9 amended: pivots, axes, joint limits, damping, stiffness and
controller gains of the AMBF-constraint export are rounded to 4 decimals,
but `'max motor impulse'` is emitted raw, and the legacy spring export
emits `'damping'`/`'stiffness'` raw as well. -/
theorem C9_amended :
    (∀ (a : AObj) (jd : JointRecord),
      (a.constraintType = "REVOLUTE" ∨ a.constraintType = "TORSION_SPRING"
        ∨ a.constraintType = "PRISMATIC" ∨ a.constraintType = "LINEAR_SPRING") →
      (assign_joint_params_from_ambf_constraint a jd).maxMotorImpulse
        = some a.maxMotorImpulse)
    ∧ (∀ (a : AObj) (jd : JointRecord),
      (assign_joint_params_from_ambf_constraint a jd).damping
        = some (round4 a.damping))
    ∧ (∀ (a : AObj) (jd : JointRecord), a.constraintType = "TORSION_SPRING" →
      (assign_joint_params_from_ambf_constraint a jd).stiffness
        = some (round4 a.stiffness))
    ∧ (∀ (a : AObj) (jd : JointRecord), a.constraintType = "REVOLUTE" →
      a.limitsEnable = true →
      (assign_joint_params_from_ambf_constraint a jd).jointLimits
        = some (some (round4 (radians a.limitsLower)),
                some (round4 (radians a.limitsHigher))))
    ∧ (∀ (a : AObj) (jd : JointRecord), a.enableControllerGains = true →
      (assign_joint_params_from_ambf_constraint a jd).controller
        = some (round4 a.controllerP, round4 a.controllerI, round4 a.controllerD))
    ∧ (∀ (j : AObj) (p c : BObj),
      (gen_ambf_core j p c).1.parentPivot
          = some (round4V (compute_body_pivot_and_axis p.tf j.tf
              (get_axis_of_ambf_constraint j)).1)
        ∧ (gen_ambf_core j p c).1.parentAxis
          = some (round4V (compute_body_pivot_and_axis p.tf j.tf
              (get_axis_of_ambf_constraint j)).2)
        ∧ (gen_ambf_core j p c).1.childPivot
          = some (round4V (compute_body_pivot_and_axis c.tf j.tf
              (get_axis_of_ambf_constraint j)).1)
        ∧ (gen_ambf_core j p c).1.childAxis
          = some (round4V (compute_body_pivot_and_axis c.tf j.tf
              (get_axis_of_ambf_constraint j)).2))
    ∧ (∀ (con : BCon) (jd : JointRecord), con.typ = "GENERIC_SPRING" →
      con.use_limit_lin_x = true → con.use_spring_x = true →
      (assign_joint_params_from_blender_constraint con jd).damping
          = some con.spring_damping_x
        ∧ (assign_joint_params_from_blender_constraint con jd).stiffness
          = some con.spring_stiffness_x) := by
  refine ⟨?_, ?_, ?_, ?_, ?_, ?_, ?_⟩
  · intro a jd h
    rcases h with h | h | h | h <;> simp [assign_joint_params_from_ambf_constraint, h]
  · intro a jd
    simp [assign_joint_params_from_ambf_constraint]
  · intro a jd h
    simp [assign_joint_params_from_ambf_constraint, h]
  · intro a jd h hl
    simp [assign_joint_params_from_ambf_constraint, h, hl]
  · intro a jd h
    simp [assign_joint_params_from_ambf_constraint, h]
  · intro j p c
    exact ⟨rfl, rfl, rfl, rfl⟩
  · intro con jd h1 h2 h3
    constructor
    · rw [show (assign_joint_params_from_blender_constraint con jd).damping
          = some con.spring_damping_x from by
        unfold assign_joint_params_from_blender_constraint
        rw [if_neg (by rw [h1]; intro hc; exact absurd hc (by decide)),
          if_neg (by rw [h1]; intro hc; exact absurd hc (by decide)),
          if_neg (by rw [h1]; intro hc; exact absurd hc (by decide)),
          if_pos h1, if_pos h2, bc_finish_damping]
        simp [h3]]
    · unfold assign_joint_params_from_blender_constraint
      rw [if_neg (by rw [h1]; intro hc; exact absurd hc (by decide)),
        if_neg (by rw [h1]; intro hc; exact absurd hc (by decide)),
        if_neg (by rw [h1]; intro hc; exact absurd hc (by decide)),
        if_pos h1, if_pos h2, bc_finish_stiffness]
      simp [h3]

def con9 : BCon :=
  ⟨"GENERIC_SPRING", some bP6, some bC6, true, false, false, false, false,
   false, 0, 1, 0, 0, 0, 0, 0, 0, 0, 0, 0, 0, true, false, false, false,
   false, false, 1 / 100000, 0, 0, 0, 0, 0, 1 / 100000, 0, 0, 0, 0, 0⟩

/-- C9 amended, witness: at the concrete objects the raw fields and one
rounded field evaluate as stated. -/
theorem C9_amended_witness :
    (assign_joint_params_from_ambf_constraint aObj9 jointTemplate).maxMotorImpulse
        = some (1 / 100000 : ℝ)
    ∧ (assign_joint_params_from_blender_constraint con9 jointTemplate).damping
        = some (1 / 100000 : ℝ) := by
  constructor
  · exact (C9_amended.1 aObj9 jointTemplate (Or.inl rfl)).trans rfl
  · exact ((C9_amended.2.2.2.2.2.2 con9 jointTemplate rfl rfl rfl).1).trans rfl


/-! ## Claim C7 -/

/-- C7: above the `0.01` rad threshold the emitted offset is `+angle` for a
residual axis parallel (within the `0.1` dot tolerance) to the child axis,
`-angle` when antiparallel, and in every other case no offset is emitted
and the consistency-error flag is raised; both export generators surface
that flag (and the emitted offset) unchanged on the record named after the
joint. -/
theorem C7_offset_sign_and_error :
    (∀ (ca pa : V3) (R : M3),
      1 / 100 < |(to_axis_angle (r_angular_offset ca pa R)).2| →
        ((|1 - dot3 ca (to_axis_angle (r_angular_offset ca pa R)).1| < 1 / 10 →
          joint_offset_result ca pa R
            = (some (round4 (to_axis_angle (r_angular_offset ca pa R)).2), false))
        ∧ (¬(|1 - dot3 ca (to_axis_angle (r_angular_offset ca pa R)).1| < 1 / 10) →
           |1 + dot3 ca (to_axis_angle (r_angular_offset ca pa R)).1| < 1 / 10 →
          joint_offset_result ca pa R
            = (some (-(round4 (to_axis_angle (r_angular_offset ca pa R)).2)), false))
        ∧ (¬(|1 - dot3 ca (to_axis_angle (r_angular_offset ca pa R)).1| < 1 / 10) →
           ¬(|1 + dot3 ca (to_axis_angle (r_angular_offset ca pa R)).1| < 1 / 10) →
          joint_offset_result ca pa R = (none, true))))
    ∧ (∀ (ca pa : V3) (R : M3),
        ¬(1 / 100 < |(to_axis_angle (r_angular_offset ca pa R)).2|) →
        joint_offset_result ca pa R = (none, false))
    ∧ (∀ (j : AObj) (p c : BObj),
        (gen_ambf_core j p c).2
          = (joint_offset_result
              (compute_body_pivot_and_axis c.tf j.tf (get_axis_of_ambf_constraint j)).2
              (compute_body_pivot_and_axis p.tf j.tf (get_axis_of_ambf_constraint j)).2
              (p.tf.R⁻¹ * c.tf.R)).2
        ∧ (gen_ambf_core j p c).1.offset
          = (joint_offset_result
              (compute_body_pivot_and_axis c.tf j.tf (get_axis_of_ambf_constraint j)).2
              (compute_body_pivot_and_axis p.tf j.tf (get_axis_of_ambf_constraint j)).2
              (p.tf.R⁻¹ * c.tf.R)).1) := by
  refine ⟨?_, ?_, fun j p c => ⟨rfl, rfl⟩⟩
  · intro ca pa R hang
    refine ⟨?_, ?_, ?_⟩
    · intro hpar
      unfold joint_offset_result
      rw [if_pos hang, if_pos hpar]
    · intro hnpar hanti
      unfold joint_offset_result
      rw [if_pos hang, if_neg hnpar, if_pos hanti]
    · intro hnpar hnanti
      unfold joint_offset_result
      rw [if_pos hang, if_neg hnpar, if_neg hnanti]
  · intro ca pa R hang
    unfold joint_offset_result
    rw [if_neg hang]

def rRel7 : M3 := !![1, 0, 0; 0, 3 / 5, -(4 / 5); 0, 4 / 5, 3 / 5]

theorem r_angular_offset_rRel7 : r_angular_offset zAxis zAxis rRel7 = rRel7 := by
  unfold r_angular_offset
  have h1 : dot3 zAxis zAxis = 1 := unit3_zAxis
  rw [rot_matrix_from_vecs_snap (by rw [h1]; norm_num), inv_one, Matrix.one_mul]

theorem trace_rRel7 : Matrix.trace rRel7 = 11 / 5 := by
  simp [rRel7, Matrix.trace, Matrix.diag, Fin.sum_univ_three]
  norm_num

theorem to_axis_angle_rRel7_ang :
    (to_axis_angle rRel7).2 = Real.arccos (3 / 5) := by
  show Real.arccos ((Matrix.trace rRel7 - 1) / 2) = _
  rw [trace_rRel7]
  norm_num

theorem sin_arccos_35 : Real.sin (Real.arccos (3 / 5)) = 4 / 5 := by
  rw [Real.sin_arccos]
  rw [show (1 : ℝ) - (3 / 5) ^ 2 = (4 / 5) ^ 2 by norm_num,
    Real.sqrt_sq (by norm_num : (0 : ℝ) ≤ 4 / 5)]

theorem to_axis_angle_rRel7_axis : (to_axis_angle rRel7).1 = ![1, 0, 0] := by
  have htr : (Matrix.trace rRel7 - 1) / 2 = 3 / 5 := by rw [trace_rRel7]; norm_num
  have hs : Real.sin (Real.arccos ((Matrix.trace rRel7 - 1) / 2)) = 4 / 5 := by
    rw [htr, sin_arccos_35]
  funext i
  fin_cases i <;> simp [to_axis_angle, hs, rRel7]
  all_goals try norm_num [sin_arccos_35]
  all_goals rfl

theorem arccos_35_gt : 1 / 100 < Real.arccos (3 / 5) := by
  by_contra hle
  push_neg at hle
  have h1 : Real.cos (1 / 100) ≤ Real.cos (Real.arccos (3 / 5)) :=
    Real.cos_le_cos_of_nonneg_of_le_pi (Real.arccos_nonneg _)
      (by linarith [Real.pi_gt_d6]) hle
  rw [Real.cos_arccos (by norm_num) (by norm_num)] at h1
  have h2 := @Real.one_sub_sq_div_two_le_cos (1 / 100)
  norm_num at h1 h2
  linarith

/-- C7 witness: a residual rotation of `arccos(3/5) ≈ 0.927` rad about `X`
against child axis `Z` is neither parallel nor antiparallel — no offset is
emitted and the error flag is raised. -/
theorem C7_offset_sign_and_error_witness :
    joint_offset_result zAxis zAxis rRel7 = (none, true) := by
  have hax : (to_axis_angle (r_angular_offset zAxis zAxis rRel7)).1 = ![1, 0, 0] := by
    rw [r_angular_offset_rRel7, to_axis_angle_rRel7_axis]
  have hdot : dot3 zAxis (to_axis_angle (r_angular_offset zAxis zAxis rRel7)).1 = 0 := by
    rw [hax]; simp [dot3, zAxis]
  have hang : 1 / 100 < |(to_axis_angle (r_angular_offset zAxis zAxis rRel7)).2| := by
    rw [r_angular_offset_rRel7, to_axis_angle_rRel7_ang,
      abs_of_nonneg (Real.arccos_nonneg _)]
    exact arccos_35_gt
  exact (C7_offset_sign_and_error.1 zAxis zAxis rRel7 hang).2.2
    (by rw [hdot]; norm_num) (by rw [hdot]; norm_num)


/-! ## Claim C8 -/

/-- Evaluation of the child-transform composer when parent/child axes are
both the canonical `Z`, the child pivot is the origin and no offset field
is stored: a pure pivot translation off the parent frame. -/
theorem get_child_tf_axes_aligned (Tp Toff : Tf) (jd : JointRecord) (v : V3)
    (hpp : jd.parentPivot = some v) (hpa : jd.parentAxis = some ![0, 0, 1])
    (hcp : jd.childPivot = some ![0, 0, 0]) (hca : jd.childAxis = some ![0, 0, 1])
    (hoff : jd.offset = none) :
    get_child_in_world_transform Tp Toff false jd = Tp * Toff * transl v := by
  unfold get_child_in_world_transform get_parent_pivot_and_axis_data
    get_child_pivot_and_axis_data get_joint_offset_angle
  rw [hpp, hpa, hcp, hca, hoff]
  have h1 : (get_rot_mat_from_vecs ![(0 : ℝ), 0, 1] ![0, 0, 1]).1 = 1 :=
    (get_rot_mat_from_vecs_self unit3_zAxis).1
  simp only [Option.getD_some, Option.getD_none, Bool.false_eq_true, if_false,
    rotationMat_zero, h1, transl_zero_inv, Tf.mul_mk_one_zero]

def TjcOne : String → Tf := fun _ => 1

def w0 : World := fun _ => ⟨none, 1⟩

def jd1C8 : JointRecord :=
  { jointTemplate with
      name := "j1"
      parent := "p1"
      child := "c"
      typ := some "revolute"
      parentPivot := some ![1, 0, 0]
      parentAxis := some ![0, 0, 1]
      childPivot := some ![0, 0, 0]
      childAxis := some ![0, 0, 1]
      offset := none }

def jd2C8 : JointRecord :=
  { jointTemplate with
      name := "j2"
      parent := "p2"
      child := "c"
      typ := some "revolute"
      parentPivot := some ![5, 0, 0]
      parentAxis := some ![0, 0, 1]
      childPivot := some ![0, 0, 0]
      childAxis := some ![0, 0, 1]
      offset := none }

theorem one_mul_one_mul_transl (v : V3) :
    (1 : Tf) * (1 : Tf) * transl v = transl v := by
  rw [Tf.one_mul', Tf.one_mul']

/-- One legacy load step, for a non-detached joint, as a world update: the
child is re-transformed unconditionally; parenting happens only if the
child was parentless. -/
theorem load_blender_step (Tjc : String → Tf) (ig : Bool) (jd : JointRecord)
    (w : World) (hdet : is_detached_joint jd = false) :
    load_blender_joint Tjc ig jd w = fun n =>
      if n = jd.child then
        ⟨if (w jd.child).parentName = none then some jd.parent
          else (w jd.child).parentName,
         get_child_in_world_transform (w jd.parent).tf (Tjc jd.parent) ig jd⟩
      else w n := by
  have hname : get_blender_joint_handle_name jd = jd.child := by
    rw [get_blender_joint_handle_name, hdet]
    rfl
  unfold load_blender_joint
  rw [hdet]
  simp only [Bool.false_eq_true, if_false, hname]
  unfold make_obj1_parent_of_obj2
  funext n
  by_cases hn : n = jd.child
  · subst hn
    split_ifs with h1 <;> simp_all
  · split_ifs with h1 <;> simp_all

theorem load_blender_j1 :
    load_blender_joint TjcOne false jd1C8 w0 "c"
      = ⟨some "p1", transl ![1, 0, 0]⟩ := by
  rw [load_blender_step TjcOne false jd1C8 w0 rfl]
  have hT : get_child_in_world_transform (w0 jd1C8.parent).tf (TjcOne jd1C8.parent)
      false jd1C8 = transl ![1, 0, 0] := by
    rw [get_child_tf_axes_aligned _ _ jd1C8 ![1, 0, 0] rfl rfl rfl rfl rfl]
    exact one_mul_one_mul_transl _
  simp only [show jd1C8.child = "c" from rfl, show jd1C8.parent = "p1" from rfl] at hT ⊢
  simp only [hT, if_pos rfl]
  simp [w0]

theorem load_blender_j1_p2 :
    load_blender_joint TjcOne false jd1C8 w0 "p2" = ⟨none, 1⟩ := by
  rw [load_blender_step TjcOne false jd1C8 w0 rfl]
  simp only [show jd1C8.child = "c" from rfl]
  rw [if_neg (by decide)]
  rfl

theorem load_blender_j2_overwrites :
    load_blender_joint TjcOne false jd2C8 (load_blender_joint TjcOne false jd1C8 w0)
        "c" = ⟨some "p1", transl ![5, 0, 0]⟩ := by
  rw [load_blender_step TjcOne false jd2C8 _ rfl]
  have hp2 : (load_blender_joint TjcOne false jd1C8 w0) jd2C8.parent = ⟨none, 1⟩ :=
    load_blender_j1_p2
  have hc : (load_blender_joint TjcOne false jd1C8 w0) jd2C8.child
      = ⟨some "p1", transl ![1, 0, 0]⟩ := load_blender_j1
  have hT : get_child_in_world_transform
      ((load_blender_joint TjcOne false jd1C8 w0) jd2C8.parent).tf
      (TjcOne jd2C8.parent) false jd2C8 = transl ![5, 0, 0] := by
    rw [hp2]
    rw [get_child_tf_axes_aligned _ _ jd2C8 ![5, 0, 0] rfl rfl rfl rfl rfl]
    exact one_mul_one_mul_transl _
  simp only [show jd2C8.child = "c" from rfl] at hc ⊢
  simp only [hT, hc, if_pos rfl]
  simp

/-- C8 counterexample: in the legacy import path, a second joint naming an
already-positioned, already-parented child overwrites the child's world
transform (translation `(1,0,0)` becomes `(5,0,0)`). -/
theorem C8_counterexample :
    (load_blender_joint TjcOne false jd1C8 w0 "c").parentName = some "p1"
    ∧ (load_blender_joint TjcOne false jd1C8 w0 "c").tf = transl ![1, 0, 0]
    ∧ (load_blender_joint TjcOne false jd2C8
        (load_blender_joint TjcOne false jd1C8 w0) "c").tf = transl ![5, 0, 0]
    ∧ (load_blender_joint TjcOne false jd2C8
          (load_blender_joint TjcOne false jd1C8 w0) "c").tf
        ≠ (load_blender_joint TjcOne false jd1C8 w0 "c").tf := by
  refine ⟨by rw [load_blender_j1], by rw [load_blender_j1],
    by rw [load_blender_j2_overwrites], ?_⟩
  rw [load_blender_j2_overwrites, load_blender_j1]
  intro h
  have := congrFun (congrArg Tf.t h) 0
  simp [transl] at this

theorem make_obj1_tf (w : World) (o1 o2 n : String) :
    ((make_obj1_parent_of_obj2 w o1 o2) n).tf = (w n).tf := by
  unfold make_obj1_parent_of_obj2
  split_ifs with h1
  · by_cases hn : n = o2
    · subst hn; simp
    · simp [hn]
  · rfl

/-- C8 amended: the position-at-most-once guard exists only in the AMBF
(non-legacy) load path — an already-parented child keeps its transform
there — while the legacy blender path assigns the freshly composed child
transform unconditionally. -/
theorem C8_amended :
    (∀ (Tjc : String → Tf) (ig : Bool) (jd : JointRecord) (w : World),
      (w jd.child).parentName ≠ none → jd.child ≠ jd.name →
      (load_ambf_joint Tjc ig jd w jd.child).tf = (w jd.child).tf)
    ∧ (∀ (Tjc : String → Tf) (ig : Bool) (jd : JointRecord) (w : World),
      is_detached_joint jd = false →
      (load_blender_joint Tjc ig jd w jd.child).tf
        = get_child_in_world_transform (w jd.parent).tf (Tjc jd.parent) ig jd) := by
  constructor
  · intro Tjc ig jd w hpar hne
    unfold load_ambf_joint
    dsimp only
    rw [make_obj1_tf, make_obj1_tf]
    simp only [hne, if_false]
    rw [if_neg hpar]
    rw [if_neg hne]
  · intro Tjc ig jd w hdet
    rw [load_blender_step Tjc ig jd w hdet]
    simp

/-- C8 amended, witness: the ambf guard at a concrete already-parented
child keeps the stored transform. -/
theorem C8_amended_witness :
    (load_ambf_joint TjcOne false jd2C8
        (fun n => if n = "c" then ⟨some "p1", transl ![1, 0, 0]⟩ else w0 n)
        "c").tf = transl ![1, 0, 0] := by
  have h := C8_amended.1 TjcOne false jd2C8
    (fun n => if n = "c" then ⟨some "p1", transl ![1, 0, 0]⟩ else w0 n)
    (by simp [show jd2C8.child = "c" from rfl])
    (by simp [show jd2C8.child = "c" from rfl, show jd2C8.name = "j2" from rfl])
  rw [show jd2C8.child = "c" from rfl] at h
  rw [h]
  simp

/-! ## Claim C2 -/

/-- General skew-square identity (no unit hypothesis). -/
theorem skew_sq_general (v : V3) :
    skew_mat v * skew_mat v = Matrix.vecMulVec v v - (dot3 v v) • 1 := by
  ext i j
  fin_cases i <;> fin_cases j <;>
    simp [skew_mat, Matrix.mul_apply, Matrix.vecMulVec, Fin.sum_univ_three,
      Matrix.one_apply, dot3] <;> ring

theorem skew_mat_div (v : V3) (n : ℝ) :
    skew_mat (fun i => v i / n) = (1 / n) • skew_mat v := by
  ext i j
  fin_cases i <;> fin_cases j <;> simp [skew_mat] <;> ring

theorem vecMulVec_div (v : V3) (n : ℝ) :
    Matrix.vecMulVec (fun i => v i / n) (fun i => v i / n)
      = (1 / (n * n)) • Matrix.vecMulVec v v := by
  ext i j
  fin_cases i <;> fin_cases j <;> simp [Matrix.vecMulVec] <;> ring

/-- In the generic branch, on unit inputs, the source's Rodrigues
construction coincides with `mathutils.Matrix.Rotation` about the cross
product by the enclosed angle. -/
theorem rot_matrix_from_vecs_generic_eq {a b : V3}
    (ha : unit3 a) (hb : unit3 b)
    (h1 : ¬(1 - dot3 a b < 1 / 10)) (h2 : ¬(1 + dot3 a b < 1 / 10)) :
    rot_matrix_from_vecs a b = rotationMat (angle3 a b) (cross3 a b) := by
  have ha' : dot3 a a = 1 := ha
  have hb' : dot3 b b = 1 := hb
  have ht1 : dot3 a b ≤ 9 / 10 := by linarith [not_lt.mp h1]
  have ht2 : -(9 / 10 : ℝ) ≤ dot3 a b := by linarith [not_lt.mp h2]
  have hd : dot3 (cross3 a b) (cross3 a b) = 1 - dot3 a b ^ 2 := by
    rw [cross3_lagrange, ha', hb']; ring
  have hdpos : 0 < dot3 (cross3 a b) (cross3 a b) := by rw [hd]; nlinarith
  have hnormsq : vec_norm (cross3 a b) ^ 2 = 1 - dot3 a b ^ 2 := by
    rw [vec_norm_sq, hd]
  have hnorm_pos : 0 < vec_norm (cross3 a b) := by
    rcases lt_or_eq_of_le (vec_norm_nonneg (cross3 a b)) with h | h
    · exact h
    · exfalso
      have := vec_norm_sq (cross3 a b)
      rw [← h] at this
      simp at this
      rw [← this] at hdpos
      exact lt_irrefl 0 hdpos
  have hang : angle3 a b = Real.arccos (dot3 a b) := angle3_of_unit ha hb
  have hcos : Real.cos (angle3 a b) = dot3 a b := by
    rw [hang, Real.cos_arccos (by linarith) (by linarith)]
  have hsin : Real.sin (angle3 a b) = vec_norm (cross3 a b) := by
    rw [hang, Real.sin_arccos]
    rw [show (1 : ℝ) - dot3 a b ^ 2 = vec_norm (cross3 a b) ^ 2 from hnormsq.symm,
      Real.sqrt_sq (vec_norm_nonneg _)]
  rw [rot_matrix_from_vecs_generic h1 h2, rotationMat, hcos, hsin,
    skew_mat_div, vecMulVec_div, smul_smul, smul_smul, skew_sq_general, hd]
  rw [smul_sub]
  have e1 : vec_norm (cross3 a b) * (1 / vec_norm (cross3 a b)) = 1 := by
    field_simp
  have e2 : (1 - dot3 a b) * (1 / (vec_norm (cross3 a b) * vec_norm (cross3 a b)))
      = (1 - dot3 a b) / vec_norm (cross3 a b) ^ 2 := by
    rw [pow_two]
    ring
  have e3 : ((1 - dot3 a b) / vec_norm (cross3 a b) ^ 2)
      • ((1 - dot3 a b ^ 2) • (1 : M3)) = (1 - dot3 a b) • (1 : M3) := by
    rw [smul_smul, hnormsq]
    congr 1
    have hne : (1 : ℝ) - dot3 a b ^ 2 ≠ 0 := by nlinarith
    field_simp
  rw [e1, e2, e3, one_smul]
  module

theorem rot_matrix_from_vecs_generic_orthonormal {a b : V3}
    (ha : unit3 a) (hb : unit3 b)
    (h1 : ¬(1 - dot3 a b < 1 / 10)) (h2 : ¬(1 + dot3 a b < 1 / 10)) :
    (rot_matrix_from_vecs a b)ᵀ * rot_matrix_from_vecs a b = 1 := by
  have ha' : dot3 a a = 1 := ha
  have hb' : dot3 b b = 1 := hb
  have hd : dot3 (cross3 a b) (cross3 a b) = 1 - dot3 a b ^ 2 := by
    rw [cross3_lagrange, ha', hb']; ring
  have hdpos : 0 < dot3 (cross3 a b) (cross3 a b) := by
    rw [hd]
    have ht1 : dot3 a b ≤ 9 / 10 := by linarith [not_lt.mp h1]
    have ht2 : -(9 / 10 : ℝ) ≤ dot3 a b := by linarith [not_lt.mp h2]
    nlinarith
  rw [rot_matrix_from_vecs_generic_eq ha hb h1 h2]
  exact rotationMat_orthonormal_of_ne (vec_norm_ne_zero_of_dot_pos hdpos) _

def b0C2 : V3 := ![20 / 101, 0, 99 / 101]

/-- C2 counterexample: `a = Z` and `b` at dot `99/101 ≈ 0.980` from it are
unit vectors inside the identity-snap zone (`1 − a·b < 0.1`), so the
returned matrix is the identity and `R·a ⬝ b = 99/101 < 1 − 10⁻³`:
`rotationBetween(a,b) · a` is not parallel to `b` within the claimed
tolerance. -/
theorem C2_counterexample :
    unit3 zAxis ∧ unit3 b0C2
    ∧ rot_matrix_from_vecs zAxis b0C2 = 1
    ∧ dot3 ((rot_matrix_from_vecs zAxis b0C2).mulVec zAxis) b0C2 < 1 - 1 / 1000 := by
  have hu : unit3 b0C2 := by
    show dot3 b0C2 b0C2 = 1
    simp [dot3, b0C2]
    norm_num
  have hdot : dot3 zAxis b0C2 = 99 / 101 := by
    simp [dot3, zAxis, b0C2]
  have hsnap : rot_matrix_from_vecs zAxis b0C2 = 1 :=
    rot_matrix_from_vecs_snap (by rw [hdot]; norm_num)
  refine ⟨unit3_zAxis, hu, hsnap, ?_⟩
  rw [hsnap, Matrix.one_mulVec, hdot]
  norm_num

/-- C2 amended: outside both snap zones the construction maps `a` exactly
onto `b` and is orthonormal; inside the near-parallel snap zone
(`1 − a·b < 0.1`, not merely exact equality) the function returns the
identity, so `R·a ⬝ b = a·b` can be as low as `0.9`; `rotationBetween(a,a)`
is the identity; `rotationBetween(a,−a)` is a rotation by `π` about a unit
axis orthogonal to `a`; and for near-parallel inputs the axis/angle variant
does not return the identity policy-wise but a rotation by the true angle
about the arbitrary `Y` axis. -/
theorem C2_amended :
    (∀ a b : V3, unit3 a → unit3 b →
      ¬(1 - dot3 a b < 1 / 10) → ¬(1 + dot3 a b < 1 / 10) →
      (rot_matrix_from_vecs a b).mulVec a = b
      ∧ (rot_matrix_from_vecs a b)ᵀ * rot_matrix_from_vecs a b = 1)
    ∧ (∀ a b : V3, 1 - dot3 a b < 1 / 10 → rot_matrix_from_vecs a b = 1)
    ∧ (∀ a : V3, unit3 a → rot_matrix_from_vecs a a = 1)
    ∧ (∀ a : V3, unit3 a → ∃ u : V3, unit3 u ∧ dot3 u a = 0 ∧
        rot_matrix_from_vecs a (-a) = (2 : ℝ) • Matrix.vecMulVec u u - 1)
    ∧ (∀ a b : V3, |angle3 a b| ≤ 1 / 10 →
        get_rot_mat_from_vecs a b = (rotationMat (angle3 a b) yAxis, angle3 a b)) := by
  refine ⟨?_, ?_, ?_, ?_, ?_⟩
  · intro a b ha hb h1 h2
    exact ⟨rot_matrix_from_vecs_generic_mulVec ha hb h1 h2,
      rot_matrix_from_vecs_generic_orthonormal ha hb h1 h2⟩
  · intro a b h
    exact rot_matrix_from_vecs_snap h
  · intro a ha
    exact rot_matrix_from_vecs_snap (by rw [show dot3 a a = 1 from ha]; norm_num)
  · intro a ha
    exact rot_matrix_from_vecs_antiparallel ha
  · intro a b h
    unfold get_rot_mat_from_vecs get_rot_mat_axis
    rw [if_pos h]

/-- C2 amended, witness: the generic branch at `a = Z`, `b = X` maps `Z`
to `X`; the snap zone at `(Z, Z)` gives the identity; the anti-parallel
case at `Z` produces a `π` rotation about a unit axis orthogonal to `Z`. -/
theorem C2_amended_witness :
    (rot_matrix_from_vecs zAxis xAxis).mulVec zAxis = xAxis
    ∧ rot_matrix_from_vecs zAxis zAxis = 1
    ∧ (∃ u : V3, unit3 u ∧ dot3 u zAxis = 0 ∧
        rot_matrix_from_vecs zAxis (-zAxis) = (2 : ℝ) • Matrix.vecMulVec u u - 1) := by
  have hd : dot3 zAxis xAxis = 0 := by simp [dot3, zAxis, xAxis]
  refine ⟨(C2_amended.1 zAxis xAxis unit3_zAxis unit3_xAxis
      (by rw [hd]; norm_num) (by rw [hd]; norm_num)).1,
    C2_amended.2.2.1 zAxis unit3_zAxis,
    C2_amended.2.2.2.1 zAxis unit3_zAxis⟩


/-! ## Helper lemmas for the round-trip claim -/

theorem default_axis_unit (con : BCon) :
    unit3 (get_default_axis_of_blender_constraint con) := by
  unfold get_default_axis_of_blender_constraint
  split_ifs <;> first
    | exact unit3_zAxis
    | exact unit3_xAxis
    | exact unit3_yAxis

theorem Tf.mul_one' (A : Tf) : A * (1 : Tf) = A := by
  refine Tf.ext' ?_ ?_
  · simp [Tf.mul_R, Tf.one_def]
  · simp [Tf.mul_t, Tf.one_def, funzero_eq, Matrix.mulVec_zero]

theorem Tf.mul_transl_eval (A : Tf) (v : V3) :
    A * transl v = ⟨A.R, A.R.mulVec v + A.t⟩ := by
  refine Tf.ext' ?_ ?_
  · simp [Tf.mul_R, transl]
  · simp [Tf.mul_t, transl]

theorem Tf.mul_rotblock (A : Tf) (B : M3) :
    A * Tf.mk B ![0, 0, 0] = ⟨A.R * B, A.t⟩ := by
  refine Tf.ext' ?_ ?_
  · simp [Tf.mul_R]
  · simp [Tf.mul_t, vec0_eq, funzero_eq, Matrix.mulVec_zero]

theorem r_angular_offset_unit_self {a : V3} (ha : unit3 a) (R : M3) :
    r_angular_offset a a R = R := by
  unfold r_angular_offset
  rw [rot_matrix_from_vecs_snap (by rw [show dot3 a a = 1 from ha]; norm_num),
    inv_one, Matrix.one_mul]

/-- Offset emission for a pure twist about the (unit) shared axis. -/
theorem joint_offset_result_twist {a : V3} (ha : unit3 a) {ψ : ℝ}
    (h1 : 1 / 100 < ψ) (h2 : ψ < Real.pi) :
    joint_offset_result a a (rotationMat ψ a) = (some (round4 ψ), false) := by
  have hro : r_angular_offset a a (rotationMat ψ a) = rotationMat ψ a :=
    r_angular_offset_unit_self ha _
  have h0 : (0 : ℝ) < ψ := lt_trans (by norm_num) h1
  have htaa : to_axis_angle (rotationMat ψ a) = (a, ψ) :=
    to_axis_angle_rotationMat ha h0 h2
  unfold joint_offset_result
  rw [hro, htaa]
  dsimp only
  rw [if_pos (by rw [abs_of_pos h0]; exact h1),
    if_pos (by rw [show dot3 a a = 1 from ha]; norm_num)]

theorem gen_blender_core_parentPivot (j p c : BObj) (con : BCon) :
    (gen_blender_core j p c con).1.parentPivot
      = some (round4V
          (if j.isEmpty ∧ has_detached_prefix ( remove_namespace_prefix j.name)
           then (compute_body_pivot_and_axis p.tf j.tf
              (get_default_axis_of_blender_constraint con)).1
           else (compute_body_pivot_and_axis p.tf c.tf
              (get_default_axis_of_blender_constraint con)).1)) := by
  show (assign_joint_params_from_blender_constraint con _).parentPivot = _
  rw [assign_blender_parentPivot]

theorem gen_blender_core_parentAxis (j p c : BObj) (con : BCon) :
    (gen_blender_core j p c con).1.parentAxis
      = some (round4V
          (if j.isEmpty ∧ has_detached_prefix ( remove_namespace_prefix j.name)
           then (compute_body_pivot_and_axis p.tf j.tf
              (get_default_axis_of_blender_constraint con)).2
           else (compute_body_pivot_and_axis p.tf c.tf
              (get_default_axis_of_blender_constraint con)).2)) := by
  show (assign_joint_params_from_blender_constraint con _).parentAxis = _
  rw [assign_blender_parentAxis]

theorem gen_blender_core_offset (j p c : BObj) (con : BCon) :
    (gen_blender_core j p c con).1.offset
      = (joint_offset_result
          (if j.isEmpty ∧ has_detached_prefix ( remove_namespace_prefix j.name)
           then (compute_body_pivot_and_axis c.tf j.tf
              (get_default_axis_of_blender_constraint con)).2
           else get_default_axis_of_blender_constraint con)
          (if j.isEmpty ∧ has_detached_prefix ( remove_namespace_prefix j.name)
           then (compute_body_pivot_and_axis p.tf j.tf
              (get_default_axis_of_blender_constraint con)).2
           else (compute_body_pivot_and_axis p.tf c.tf
              (get_default_axis_of_blender_constraint con)).2)
          (p.tf.R⁻¹ * c.tf.R)).1 := rfl

theorem gen_blender_core_flag (j p c : BObj) (con : BCon) :
    (gen_blender_core j p c con).2
      = (joint_offset_result
          (if j.isEmpty ∧ has_detached_prefix ( remove_namespace_prefix j.name)
           then (compute_body_pivot_and_axis c.tf j.tf
              (get_default_axis_of_blender_constraint con)).2
           else get_default_axis_of_blender_constraint con)
          (if j.isEmpty ∧ has_detached_prefix ( remove_namespace_prefix j.name)
           then (compute_body_pivot_and_axis p.tf j.tf
              (get_default_axis_of_blender_constraint con)).2
           else (compute_body_pivot_and_axis p.tf c.tf
              (get_default_axis_of_blender_constraint con)).2)
          (p.tf.R⁻¹ * c.tf.R)).2 := rfl

/-- Composer evaluation for stored pivot `v`, shared unit axis `a`, origin
child pivot and a stored offset `φ`. -/
theorem get_child_tf_eval (Tp : Tf) (jd : JointRecord) (v a : V3) (φ : ℝ)
    (ha : unit3 a)
    (hpp : jd.parentPivot = some v) (hpa : jd.parentAxis = some a)
    (hcp : jd.childPivot = some ![0, 0, 0]) (hca : jd.childAxis = some a)
    (hoff : jd.offset = some φ) :
    get_child_in_world_transform Tp 1 false jd
      = ⟨Tp.R * rotationMat φ a, Tp.R.mulVec v + Tp.t⟩ := by
  unfold get_child_in_world_transform get_parent_pivot_and_axis_data
    get_child_pivot_and_axis_data get_joint_offset_angle
  rw [hpp, hpa, hcp, hca, hoff]
  have h1 : (get_rot_mat_from_vecs a a).1 = 1 := (get_rot_mat_from_vecs_self ha).1
  simp only [Option.getD_some, Bool.false_eq_true, if_false, h1, transl_zero_inv,
    Tf.mul_mk_one_zero, Tf.mul_one']
  rw [Tf.mul_transl_eval, Tf.mul_rotblock]

theorem dot3_mulVec_orthonormal {R : M3} (h : Rᵀ * R = 1) (x : V3) :
    dot3 (R.mulVec x) (R.mulVec x) = dot3 x x := by
  have e : ∀ j k : Fin 3, R 0 j * R 0 k + R 1 j * R 1 k + R 2 j * R 2 k
      = (1 : M3) j k := by
    intro j k
    have := congrFun (congrFun h j) k
    simpa [Matrix.mul_apply, Matrix.transpose_apply, Fin.sum_univ_three] using this
  have e00 := e 0 0
  have e01 := e 0 1
  have e02 := e 0 2
  have e10 := e 1 0
  have e11 := e 1 1
  have e12 := e 1 2
  have e20 := e 2 0
  have e21 := e 2 1
  have e22 := e 2 2
  simp only [Matrix.one_apply] at e00 e01 e02 e10 e11 e12 e20 e21 e22
  simp only [show ((0 : Fin 3) = (0 : Fin 3)) = True from eq_true rfl,
    show ((1 : Fin 3) = (1 : Fin 3)) = True from eq_true rfl,
    show ((2 : Fin 3) = (2 : Fin 3)) = True from eq_true rfl,
    show ((0 : Fin 3) = (1 : Fin 3)) = False from eq_false (by decide),
    show ((0 : Fin 3) = (2 : Fin 3)) = False from eq_false (by decide),
    show ((1 : Fin 3) = (0 : Fin 3)) = False from eq_false (by decide),
    show ((1 : Fin 3) = (2 : Fin 3)) = False from eq_false (by decide),
    show ((2 : Fin 3) = (0 : Fin 3)) = False from eq_false (by decide),
    show ((2 : Fin 3) = (1 : Fin 3)) = False from eq_false (by decide),
    if_true, if_false] at e00 e01 e02 e10 e11 e12 e20 e21 e22
  simp only [dot3, Matrix.mulVec, Matrix.dotProduct, Fin.sum_univ_three]
  linear_combination (x 0 * x 0) * e00 + (x 0 * x 1) * e01 + (x 0 * x 2) * e02
    + (x 1 * x 0) * e10 + (x 1 * x 1) * e11 + (x 1 * x 2) * e12
    + (x 2 * x 0) * e20 + (x 2 * x 1) * e21 + (x 2 * x 2) * e22

theorem vec_norm_eq_sqrt_dot3 (v : V3) : vec_norm v = Real.sqrt (dot3 v v) := by
  rw [vec_norm]
  have : dot3 v v = v 0 ^ 2 + v 1 ^ 2 + v 2 ^ 2 := by
    simp only [dot3]
    ring
  rw [this]

theorem vec_norm_mulVec_orthonormal {R : M3} (h : Rᵀ * R = 1) (x : V3) :
    vec_norm (R.mulVec x) = vec_norm x := by
  rw [vec_norm_eq_sqrt_dot3, vec_norm_eq_sqrt_dot3, dot3_mulVec_orthonormal h]

/-- The 4-decimal rounding of a vector moves it by at most `10⁻⁴` in
Euclidean norm. -/
theorem round4V_err (v : V3) : vec_norm (round4V v - v) ≤ 1 / 10000 := by
  have h0 := round4_sub_abs_le (v 0)
  have h1 := round4_sub_abs_le (v 1)
  have h2 := round4_sub_abs_le (v 2)
  have hsum : (round4V v - v) 0 ^ 2 + (round4V v - v) 1 ^ 2 + (round4V v - v) 2 ^ 2
      ≤ (1 / 10000 : ℝ) ^ 2 := by
    have b0 : (round4V v - v) 0 ^ 2 ≤ (1 / 20000 : ℝ) ^ 2 := by
      rw [show (round4V v - v) 0 = round4 (v 0) - v 0 from rfl]
      nlinarith [abs_nonneg (round4 (v 0) - v 0), sq_abs (round4 (v 0) - v 0)]
    have b1 : (round4V v - v) 1 ^ 2 ≤ (1 / 20000 : ℝ) ^ 2 := by
      rw [show (round4V v - v) 1 = round4 (v 1) - v 1 from rfl]
      nlinarith [abs_nonneg (round4 (v 1) - v 1), sq_abs (round4 (v 1) - v 1)]
    have b2 : (round4V v - v) 2 ^ 2 ≤ (1 / 20000 : ℝ) ^ 2 := by
      rw [show (round4V v - v) 2 = round4 (v 2) - v 2 from rfl]
      nlinarith [abs_nonneg (round4 (v 2) - v 2), sq_abs (round4 (v 2) - v 2)]
    nlinarith [b0, b1, b2]
  rw [vec_norm]
  calc Real.sqrt ((round4V v - v) 0 ^ 2 + (round4V v - v) 1 ^ 2 + (round4V v - v) 2 ^ 2)
      ≤ Real.sqrt ((1 / 10000 : ℝ) ^ 2) := Real.sqrt_le_sqrt hsum
    _ = 1 / 10000 := Real.sqrt_sq (by norm_num)

/-- Angle between two frames that differ by a twist about the same unit
axis with angle gap at most `1/20000`. -/
theorem twist_error_bound {a : V3} (ha : unit3 a) (Rp : M3)
    (hortho : Rpᵀ * Rp = 1) (ψ φ : ℝ) (hδ : |φ - ψ| ≤ 1 / 20000) :
    Real.arccos ((Matrix.trace ((Rp * rotationMat φ a)ᵀ * (Rp * rotationMat ψ a))
      - 1) / 2) ≤ 1 / 1000 := by
  have h1 : (Rp * rotationMat φ a)ᵀ * (Rp * rotationMat ψ a)
      = rotationMat (ψ - φ) a := by
    rw [Matrix.transpose_mul, Matrix.mul_assoc]
    rw [← Matrix.mul_assoc Rpᵀ Rp (rotationMat ψ a), hortho, Matrix.one_mul]
    rw [rotationMat_transpose ha, rotationMat_mul ha,
      show -φ + ψ = ψ - φ from by ring]
  rw [h1, rotationMat_trace ha,
    show (1 + 2 * Real.cos (ψ - φ) - 1) / 2 = Real.cos (ψ - φ) from by ring]
  have habs : |ψ - φ| ≤ 1 / 20000 := by rw [abs_sub_comm]; exact hδ
  rcases le_or_lt 0 (ψ - φ) with h | h
  · rw [Real.arccos_cos h (by
      have := Real.pi_gt_d6
      have hle : ψ - φ ≤ 1 / 20000 := le_trans (le_abs_self _) habs
      linarith)]
    have hle : ψ - φ ≤ 1 / 20000 := le_trans (le_abs_self _) habs
    linarith
  · rw [← Real.cos_neg, Real.arccos_cos (by linarith) (by
      have := Real.pi_gt_d6
      have hle : -(ψ - φ) ≤ 1 / 20000 := le_trans (neg_le_abs _) habs
      linarith)]
    have hle : -(ψ - φ) ≤ 1 / 20000 := le_trans (neg_le_abs _) habs
    linarith


/-! ## Claim C1 -/

theorem compute_body_pivot_and_axis_twist {Rp : M3} {tp tc a : V3} {ψ : ℝ}
    (ha : unit3 a) (hinvR : Rp⁻¹ * Rp = 1) :
    compute_body_pivot_and_axis ⟨Rp, tp⟩ ⟨Rp * rotationMat ψ a, tc⟩ a
      = (Rp⁻¹.mulVec tc + -(Rp⁻¹.mulVec tp), a) := by
  unfold compute_body_pivot_and_axis Tf.inv
  rw [Tf.mul_def]
  refine Prod.ext rfl ?_
  show (Rp⁻¹ * (Rp * rotationMat ψ a)).mulVec a = a
  rw [← Matrix.mul_assoc, hinvR, Matrix.one_mul]
  exact rotationMat_mulVec_self ha ψ

/-- Below (or at) the `0.01` rad threshold no offset is emitted and no
error is flagged. -/
theorem joint_offset_result_small {a : V3} (ha : unit3 a) {ψ : ℝ}
    (h0 : 0 < ψ) (h2 : ψ < Real.pi) (h1 : ψ ≤ 1 / 100) :
    joint_offset_result a a (rotationMat ψ a) = (none, false) := by
  unfold joint_offset_result
  rw [r_angular_offset_unit_self ha, to_axis_angle_rotationMat ha h0 h2]
  dsimp only
  rw [if_neg (by rw [abs_of_pos h0]; exact not_lt.mpr h1)]

/-- Composer evaluation when no offset was stored. -/
theorem get_child_tf_eval_nooff (Tp : Tf) (jd : JointRecord) (v a : V3)
    (ha : unit3 a)
    (hpp : jd.parentPivot = some v) (hpa : jd.parentAxis = some a)
    (hcp : jd.childPivot = some ![0, 0, 0]) (hca : jd.childAxis = some a)
    (hoff : jd.offset = none) :
    get_child_in_world_transform Tp 1 false jd
      = ⟨Tp.R, Tp.R.mulVec v + Tp.t⟩ := by
  unfold get_child_in_world_transform get_parent_pivot_and_axis_data
    get_child_pivot_and_axis_data get_joint_offset_angle
  rw [hpp, hpa, hcp, hca, hoff]
  have h1 : (get_rot_mat_from_vecs a a).1 = 1 := (get_rot_mat_from_vecs_self ha).1
  simp only [Option.getD_some, Option.getD_none, Bool.false_eq_true, if_false, h1,
    rotationMat_zero, transl_zero_inv, Tf.mul_mk_one_zero, Tf.mul_one']
  rw [Tf.mul_transl_eval]

def cC1 : ℝ := 62499 / 62501

def sC1 : ℝ := 500 / 62501

/-- The residual twist angle of the C1 counterexample: about `0.008` rad,
inside `(10⁻³, 10⁻²]`. -/
def psiC1 : ℝ := Real.arccos cC1

def RpsiC1 : M3 := !![cC1, -sC1, 0; sC1, cC1, 0; 0, 0, 1]

def pObjC1 : BObj := ⟨"base", 1, false, false, false, 0, 0, 0, 0⟩

def cObjC1 : BObj :=
  ⟨"link", ⟨RpsiC1, ![1, 0, 0]⟩, false, false, false, 0, 0, 0, 0⟩

def jObjC1 : BObj := ⟨"j1", 1, false, false, false, 0, 0, 0, 0⟩

def conC1 : BCon :=
  ⟨"HINGE", some pObjC1, some cObjC1, false, false, false, false, false,
   false, 0, 0, 0, 0, 0, 0, 0, 0, 0, 0, 0, 0, false, false, false, false,
   false, false, 0, 0, 0, 0, 0, 0, 0, 0, 0, 0, 0, 0⟩

theorem conC1_axis : get_default_axis_of_blender_constraint conC1 = zAxis := by
  unfold get_default_axis_of_blender_constraint
  rw [if_pos (show conC1.typ = "HINGE" ∨ conC1.typ = "POINT" ∨ conC1.typ = "FIXED"
    from Or.inl rfl)]
  rfl

theorem cosPsiC1 : Real.cos psiC1 = cC1 :=
  Real.cos_arccos (by norm_num [cC1]) (by norm_num [cC1])

theorem sinPsiC1 : Real.sin psiC1 = sC1 := by
  rw [psiC1, Real.sin_arccos,
    show 1 - cC1 ^ 2 = sC1 ^ 2 from by rw [cC1, sC1]; norm_num]
  exact Real.sqrt_sq (by rw [sC1]; norm_num)

theorem psiC1_pos : 0 < psiC1 := Real.arccos_pos.mpr (by rw [cC1]; norm_num)

theorem psiC1_lt_pi : psiC1 < Real.pi := by
  rcases lt_or_eq_of_le (Real.arccos_le_pi cC1) with h | h
  · exact h
  · exfalso
    have hc := cosPsiC1
    unfold psiC1 at hc
    rw [h, Real.cos_pi] at hc
    rw [cC1] at hc
    norm_num at hc

theorem cos_one_hundredth_lt : Real.cos (1 / 100) < cC1 := by
  have habs : |(1 / 100 : ℝ)| ≤ 1 := by
    rw [abs_of_nonneg (by norm_num)]
    norm_num
  have hb := Real.cos_bound habs
  rw [abs_of_nonneg (by norm_num : (0 : ℝ) ≤ 1 / 100)] at hb
  have h1 := (abs_le.mp hb).2
  have h2 : (1 : ℝ) - (1 / 100) ^ 2 / 2 + (1 / 100) ^ 4 * (5 / 96) < cC1 := by
    rw [cC1]
    norm_num
  linarith

theorem cC1_lt_cos_thousandth : cC1 < Real.cos (1 / 1000) := by
  have habs : |(1 / 1000 : ℝ)| ≤ 1 := by
    rw [abs_of_nonneg (by norm_num)]
    norm_num
  have hb := Real.cos_bound habs
  rw [abs_of_nonneg (by norm_num : (0 : ℝ) ≤ 1 / 1000)] at hb
  have h1 := (abs_le.mp hb).1
  have h2 : cC1 < (1 : ℝ) - (1 / 1000) ^ 2 / 2 - (1 / 1000) ^ 4 * (5 / 96) := by
    rw [cC1]
    norm_num
  linarith

theorem psiC1_le : psiC1 ≤ 1 / 100 := by
  by_contra h
  push_neg at h
  have hlt : Real.cos psiC1 < Real.cos (1 / 100) :=
    Real.cos_lt_cos_of_nonneg_of_le_pi (by norm_num) psiC1_lt_pi.le h
  rw [cosPsiC1] at hlt
  linarith [cos_one_hundredth_lt]

theorem psiC1_gt : 1 / 1000 < psiC1 := by
  by_contra h
  push_neg at h
  have hle : Real.cos (1 / 1000) ≤ Real.cos psiC1 :=
    Real.cos_le_cos_of_nonneg_of_le_pi psiC1_pos.le
      (by have := Real.pi_gt_d6; linarith) h
  rw [cosPsiC1] at hle
  linarith [cC1_lt_cos_thousandth]

theorem RpsiC1_eq : RpsiC1 = rotationMat psiC1 zAxis := by
  rw [rotationMat_unit unit3_zAxis, cosPsiC1, sinPsiC1]
  ext i j
  fin_cases i <;> fin_cases j <;>
    simp [RpsiC1, zAxis, skew_mat, Matrix.vecMulVec_apply, Matrix.one_apply,
      Matrix.add_apply, Matrix.smul_apply, smul_eq_mul] <;>
    norm_num [cC1, sC1, Matrix.vecHead, Matrix.vecTail]

/-- C1 counterexample: round-trip failure from the dropped small offset.
The child frame twists by `ψ = arccos(62499/62501) ∈ (10⁻³, 10⁻²]` about
the hinge axis; the export emits no `offset` (and no error), and the
re-imported child transform is the pure translation, so the orientation
error of the round trip is `ψ > 10⁻³`, violating the claimed `10⁻³` rad
round-trip tolerance. -/
theorem C1_counterexample :
    (gen_blender_core jObjC1 pObjC1 cObjC1 conC1).2 = false
    ∧ (gen_blender_core jObjC1 pObjC1 cObjC1 conC1).1.offset = none
    ∧ get_child_in_world_transform pObjC1.tf 1 false
        (gen_blender_core jObjC1 pObjC1 cObjC1 conC1).1 = transl ![1, 0, 0]
    ∧ 1 / 1000 < Real.arccos ((Matrix.trace
        ((get_child_in_world_transform pObjC1.tf 1 false
          (gen_blender_core jObjC1 pObjC1 cObjC1 conC1).1).Rᵀ * cObjC1.tf.R)
        - 1) / 2) := by
  have hdet : ¬(jObjC1.isEmpty
      ∧ has_detached_prefix ( remove_namespace_prefix jObjC1.name)) := by decide
  have hcomp : compute_body_pivot_and_axis pObjC1.tf cObjC1.tf zAxis
      = (![1, 0, 0], zAxis) := by
    have h1 : pObjC1.tf = (⟨(1 : M3), (fun _ => 0 : V3)⟩ : Tf) := rfl
    have h2 : cObjC1.tf
        = (⟨(1 : M3) * rotationMat psiC1 zAxis, ![1, 0, 0]⟩ : Tf) := by
      show (⟨RpsiC1, ![1, 0, 0]⟩ : Tf) = _
      refine Tf.ext' ?_ rfl
      rw [Matrix.one_mul, RpsiC1_eq]
    rw [h1, h2, compute_body_pivot_and_axis_twist unit3_zAxis
      (by rw [inv_one, Matrix.one_mul])]
    refine Prod.ext ?_ rfl
    show (1 : M3)⁻¹.mulVec ![1, 0, 0] + -((1 : M3)⁻¹.mulVec fun _ => 0)
        = ![1, 0, 0]
    rw [inv_one, funzero_eq, Matrix.mulVec_zero, Matrix.one_mulVec, neg_zero,
      add_zero]
  have hr : pObjC1.tf.R⁻¹ * cObjC1.tf.R = rotationMat psiC1 zAxis := by
    show (1 : M3)⁻¹ * RpsiC1 = _
    rw [inv_one, Matrix.one_mul, RpsiC1_eq]
  have hpp : (gen_blender_core jObjC1 pObjC1 cObjC1 conC1).1.parentPivot
      = some ![1, 0, 0] := by
    rw [gen_blender_core_parentPivot, if_neg hdet, conC1_axis, hcomp]
    show some (round4V ![1, 0, 0]) = some ![1, 0, 0]
    rw [show round4V ![1, 0, 0] = ![1, 0, 0] from round4V_xAxis]
  have hpa : (gen_blender_core jObjC1 pObjC1 cObjC1 conC1).1.parentAxis
      = some zAxis := by
    rw [gen_blender_core_parentAxis, if_neg hdet, conC1_axis, hcomp]
    show some (round4V zAxis) = some zAxis
    rw [round4V_zAxis]
  have hcp : (gen_blender_core jObjC1 pObjC1 cObjC1 conC1).1.childPivot
      = some ![0, 0, 0] := by
    rw [gen_blender_core_childPivot, if_neg hdet]
    show some (round4V ![0, 0, 0]) = some ![0, 0, 0]
    rw [round4V_zero_vec]
  have hca : (gen_blender_core jObjC1 pObjC1 cObjC1 conC1).1.childAxis
      = some zAxis := by
    rw [gen_blender_core_childAxis, if_neg hdet, conC1_axis]
    show some (round4V zAxis) = some zAxis
    rw [round4V_zAxis]
  have hoff : (gen_blender_core jObjC1 pObjC1 cObjC1 conC1).1.offset = none := by
    rw [gen_blender_core_offset, if_neg hdet, if_neg hdet, conC1_axis, hcomp]
    show (joint_offset_result zAxis zAxis (pObjC1.tf.R⁻¹ * cObjC1.tf.R)).1 = none
    rw [hr, joint_offset_result_small unit3_zAxis psiC1_pos psiC1_lt_pi psiC1_le]
  have hflag : (gen_blender_core jObjC1 pObjC1 cObjC1 conC1).2 = false := by
    rw [gen_blender_core_flag, if_neg hdet, if_neg hdet, conC1_axis, hcomp]
    show (joint_offset_result zAxis zAxis (pObjC1.tf.R⁻¹ * cObjC1.tf.R)).2 = false
    rw [hr, joint_offset_result_small unit3_zAxis psiC1_pos psiC1_lt_pi psiC1_le]
  have hT : get_child_in_world_transform pObjC1.tf 1 false
      (gen_blender_core jObjC1 pObjC1 cObjC1 conC1).1 = transl ![1, 0, 0] := by
    rw [get_child_tf_eval_nooff pObjC1.tf _ ![1, 0, 0] zAxis unit3_zAxis
      hpp hpa hcp hca hoff]
    refine Tf.ext' rfl ?_
    show (1 : M3).mulVec ![1, 0, 0] + (fun _ => 0 : V3) = ![1, 0, 0]
    rw [Matrix.one_mulVec, funzero_eq, add_zero]
  have hang : Real.arccos ((Matrix.trace
      ((get_child_in_world_transform pObjC1.tf 1 false
        (gen_blender_core jObjC1 pObjC1 cObjC1 conC1).1).Rᵀ * cObjC1.tf.R)
      - 1) / 2) = psiC1 := by
    rw [hT]
    show Real.arccos ((Matrix.trace ((1 : M3)ᵀ * RpsiC1) - 1) / 2) = psiC1
    rw [Matrix.transpose_one, Matrix.one_mul, RpsiC1_eq,
      rotationMat_trace unit3_zAxis,
      show (1 + 2 * Real.cos psiC1 - 1) / 2 = Real.cos psiC1 from by ring,
      Real.arccos_cos psiC1_pos.le psiC1_lt_pi.le]
  exact ⟨hflag, hoff, hT, by rw [hang]; exact psiC1_gt⟩

/-- C1 amended: the export-import round trip is tight once the dropped
small-offset zone is excluded.  If the parent's rotation block is
orthonormal and the child's parent-relative pose is a pure twist
`ψ ∈ (0.01, π)` about the constraint's default axis, then the export
raises no consistency error and the re-imported child transform matches
the original within `10⁻⁴` in translation and `10⁻³` rad in rotation
(both dominated by the `round(·, 4)` emission quantisation). -/
theorem C1_amended (pObj cObj jObj : BObj) (con : BCon) (Rp : M3)
    (tp tc : V3) (ψ : ℝ)
    (hortho : Rpᵀ * Rp = 1)
    (hp : pObj.tf = ⟨Rp, tp⟩)
    (hc : cObj.tf
      = ⟨Rp * rotationMat ψ (get_default_axis_of_blender_constraint con), tc⟩)
    (hdet : ¬(jObj.isEmpty
      ∧ has_detached_prefix ( remove_namespace_prefix jObj.name)))
    (hψ1 : 1 / 100 < ψ) (hψ2 : ψ < Real.pi) :
    (gen_blender_core jObj pObj cObj con).2 = false
    ∧ vec_norm ((get_child_in_world_transform pObj.tf 1 false
          (gen_blender_core jObj pObj cObj con).1).t - cObj.tf.t) ≤ 1 / 10000
    ∧ Real.arccos ((Matrix.trace ((get_child_in_world_transform pObj.tf 1 false
          (gen_blender_core jObj pObj cObj con).1).Rᵀ * cObj.tf.R) - 1) / 2)
        ≤ 1 / 1000 := by
  have ha := default_axis_unit con
  have har := round4V_default_axis con
  have hRpinv : Rp⁻¹ = Rpᵀ := Matrix.inv_eq_left_inv hortho
  have hinvR : Rp⁻¹ * Rp = 1 := by rw [hRpinv]; exact hortho
  have hRRinv : Rp * Rp⁻¹ = 1 := by
    rw [hRpinv]
    exact Matrix.mul_eq_one_comm.mp hortho
  have hcomp : compute_body_pivot_and_axis pObj.tf cObj.tf
      (get_default_axis_of_blender_constraint con)
      = (Rp⁻¹.mulVec tc + -(Rp⁻¹.mulVec tp),
         get_default_axis_of_blender_constraint con) := by
    rw [hp, hc]
    exact compute_body_pivot_and_axis_twist ha hinvR
  have hr : pObj.tf.R⁻¹ * cObj.tf.R
      = rotationMat ψ (get_default_axis_of_blender_constraint con) := by
    rw [hp, hc]
    show Rp⁻¹ * (Rp * rotationMat ψ _) = _
    rw [← Matrix.mul_assoc, hinvR, Matrix.one_mul]
  have hoffres := joint_offset_result_twist ha hψ1 hψ2
  have hpp : (gen_blender_core jObj pObj cObj con).1.parentPivot
      = some (round4V (Rp⁻¹.mulVec tc + -(Rp⁻¹.mulVec tp))) := by
    rw [gen_blender_core_parentPivot, if_neg hdet, hcomp]
  have hpa : (gen_blender_core jObj pObj cObj con).1.parentAxis
      = some (get_default_axis_of_blender_constraint con) := by
    rw [gen_blender_core_parentAxis, if_neg hdet, hcomp]
    show some (round4V (get_default_axis_of_blender_constraint con)) = _
    rw [har]
  have hcp : (gen_blender_core jObj pObj cObj con).1.childPivot
      = some ![0, 0, 0] := by
    rw [gen_blender_core_childPivot, if_neg hdet]
    show some (round4V ![0, 0, 0]) = some ![0, 0, 0]
    rw [round4V_zero_vec]
  have hca : (gen_blender_core jObj pObj cObj con).1.childAxis
      = some (get_default_axis_of_blender_constraint con) := by
    rw [gen_blender_core_childAxis, if_neg hdet]
    show some (round4V (get_default_axis_of_blender_constraint con)) = _
    rw [har]
  have hoff : (gen_blender_core jObj pObj cObj con).1.offset
      = some (round4 ψ) := by
    rw [gen_blender_core_offset, if_neg hdet, if_neg hdet, hcomp]
    show (joint_offset_result (get_default_axis_of_blender_constraint con)
      (get_default_axis_of_blender_constraint con)
      (pObj.tf.R⁻¹ * cObj.tf.R)).1 = _
    rw [hr, hoffres]
  have hflag : (gen_blender_core jObj pObj cObj con).2 = false := by
    rw [gen_blender_core_flag, if_neg hdet, if_neg hdet, hcomp]
    show (joint_offset_result (get_default_axis_of_blender_constraint con)
      (get_default_axis_of_blender_constraint con)
      (pObj.tf.R⁻¹ * cObj.tf.R)).2 = false
    rw [hr, hoffres]
  have hT := get_child_tf_eval pObj.tf _
    (round4V (Rp⁻¹.mulVec tc + -(Rp⁻¹.mulVec tp)))
    (get_default_axis_of_blender_constraint con) (round4 ψ)
    ha hpp hpa hcp hca hoff
  refine ⟨hflag, ?_, ?_⟩
  · rw [hT, hp, hc]
    show vec_norm
      (Rp.mulVec (round4V (Rp⁻¹.mulVec tc + -(Rp⁻¹.mulVec tp))) + tp - tc)
      ≤ 1 / 10000
    have hpvtc : Rp.mulVec (Rp⁻¹.mulVec tc + -(Rp⁻¹.mulVec tp)) + tp = tc := by
      rw [Matrix.mulVec_add, Matrix.mulVec_neg, Matrix.mulVec_mulVec,
        Matrix.mulVec_mulVec, hRRinv, Matrix.one_mulVec, Matrix.one_mulVec]
      abel
    have hdiff :
        Rp.mulVec (round4V (Rp⁻¹.mulVec tc + -(Rp⁻¹.mulVec tp))) + tp - tc
          = Rp.mulVec (round4V (Rp⁻¹.mulVec tc + -(Rp⁻¹.mulVec tp))
              - (Rp⁻¹.mulVec tc + -(Rp⁻¹.mulVec tp))) := by
      calc Rp.mulVec (round4V (Rp⁻¹.mulVec tc + -(Rp⁻¹.mulVec tp))) + tp - tc
          = Rp.mulVec (round4V (Rp⁻¹.mulVec tc + -(Rp⁻¹.mulVec tp))) + tp
            - (Rp.mulVec (Rp⁻¹.mulVec tc + -(Rp⁻¹.mulVec tp)) + tp) := by
              rw [hpvtc]
        _ = Rp.mulVec (round4V (Rp⁻¹.mulVec tc + -(Rp⁻¹.mulVec tp)))
            - Rp.mulVec (Rp⁻¹.mulVec tc + -(Rp⁻¹.mulVec tp)) := by abel
        _ = Rp.mulVec (round4V (Rp⁻¹.mulVec tc + -(Rp⁻¹.mulVec tp))
              - (Rp⁻¹.mulVec tc + -(Rp⁻¹.mulVec tp))) := by
            simp only [sub_eq_add_neg, Matrix.mulVec_add, Matrix.mulVec_neg]
    rw [hdiff, vec_norm_mulVec_orthonormal hortho]
    exact round4V_err _
  · rw [hT, hp, hc]
    show Real.arccos ((Matrix.trace
        ((Rp * rotationMat (round4 ψ) (get_default_axis_of_blender_constraint con))ᵀ
          * (Rp * rotationMat ψ (get_default_axis_of_blender_constraint con)))
        - 1) / 2) ≤ 1 / 1000
    exact twist_error_bound ha Rp hortho ψ (round4 ψ) (round4_sub_abs_le ψ)

def cObjC1w : BObj :=
  ⟨"link2", ⟨rotationMat (Real.pi / 2) zAxis, ![1, 0, 0]⟩, false, false, false,
   0, 0, 0, 0⟩

/-- C1 amended, witness: a quarter-turn hinge child at offset `(1,0,0)`
satisfies the amended round-trip bounds. -/
theorem C1_amended_witness :
    (gen_blender_core jObjC1 pObjC1 cObjC1w conC1).2 = false
    ∧ vec_norm ((get_child_in_world_transform pObjC1.tf 1 false
          (gen_blender_core jObjC1 pObjC1 cObjC1w conC1).1).t - cObjC1w.tf.t)
        ≤ 1 / 10000
    ∧ Real.arccos ((Matrix.trace ((get_child_in_world_transform pObjC1.tf 1 false
          (gen_blender_core jObjC1 pObjC1 cObjC1w conC1).1).Rᵀ * cObjC1w.tf.R)
        - 1) / 2) ≤ 1 / 1000 :=
  C1_amended pObjC1 cObjC1w jObjC1 conC1 1 (fun _ => 0) ![1, 0, 0] (Real.pi / 2)
    (by rw [Matrix.transpose_one, Matrix.one_mul])
    rfl
    (by
      refine Tf.ext' ?_ rfl
      show rotationMat (Real.pi / 2) zAxis
          = 1 * rotationMat (Real.pi / 2)
              (get_default_axis_of_blender_constraint conC1)
      rw [Matrix.one_mul, conC1_axis])
    (by decide)
    (by have := Real.pi_gt_d6; linarith)
    (by have := Real.pi_pos; linarith)

/-! ## Claim C4 -/

/-- Invariant of the traversal state: no duplicates, the `added` flags
mirror list membership, members are in range, and every member's parent
precedes it. -/
def Good (n : ℕ) (parentOf : ℕ → Option ℕ) (st : TreeState) : Prop :=
  st.hlist.Nodup
  ∧ (∀ b, st.added b = true ↔ b ∈ st.hlist)
  ∧ (∀ x, x ∈ st.hlist → x < n)
  ∧ (∀ b p, b ∈ st.hlist → parentOf b = some p →
      p ∈ st.hlist ∧ st.hlist.indexOf p < st.hlist.indexOf b)

/-- The list is closed under children, except for excused bodies `E`
(the pending subtrees of an in-progress traversal). -/
def ClosedE (n : ℕ) (parentOf : ℕ → Option ℕ) (st : TreeState)
    (E : ℕ → Prop) : Prop :=
  ∀ x c, x ∈ st.hlist → c < n → parentOf c = some x → c ∈ st.hlist ∨ E c

theorem dtp_succ (n : ℕ) (parentOf : ℕ → Option ℕ) (fuel body : ℕ)
    (st : TreeState) :
    downward_tree_pass n parentOf (fuel + 1) body st
      = if st.added body then st
        else (childrenOf n parentOf body).foldl
          (fun acc c => downward_tree_pass n parentOf fuel c acc)
          ⟨st.hlist ++ [body], fun b => if b = body then true else st.added b⟩ :=
  rfl

theorem gp_succ (parentOf : ℕ → Option ℕ) (fuel b : ℕ) :
    get_grand_parent parentOf (fuel + 1) b
      = match parentOf b with
        | none => b
        | some p => get_grand_parent parentOf fuel p := rfl

theorem gp_lt (n : ℕ) (parentOf : ℕ → Option ℕ)
    (hn : ∀ b p, b < n → parentOf b = some p → p < n) :
    ∀ fuel b, b < n → get_grand_parent parentOf fuel b < n := by
  intro fuel
  induction fuel with
  | zero => intro b hb; exact hb
  | succ fuel ih =>
    intro b hb
    rw [gp_succ]
    cases hpb : parentOf b with
    | none => exact hb
    | some p => exact ih p (hn b p hb hpb)

theorem gp_root (n : ℕ) (parentOf : ℕ → Option ℕ) (rank : ℕ → ℕ)
    (hn : ∀ b p, b < n → parentOf b = some p → p < n)
    (hrank : ∀ b p, b < n → parentOf b = some p → rank p < rank b) :
    ∀ fuel b, b < n → rank b < fuel →
      parentOf (get_grand_parent parentOf fuel b) = none := by
  intro fuel
  induction fuel with
  | zero => intro b _ hf; omega
  | succ fuel ih =>
    intro b hb hf
    rw [gp_succ]
    cases hpb : parentOf b with
    | none => exact hpb
    | some p =>
      exact ih p (hn b p hb hpb) (by have := hrank b p hb hpb; omega)

theorem gp_reaches (parentOf : ℕ → Option ℕ) :
    ∀ fuel b, Relation.ReflTransGen (fun x y => parentOf y = some x)
      (get_grand_parent parentOf fuel b) b := by
  intro fuel
  induction fuel with
  | zero => intro b; exact Relation.ReflTransGen.refl
  | succ fuel ih =>
    intro b
    rw [gp_succ]
    cases hpb : parentOf b with
    | none => exact Relation.ReflTransGen.refl
    | some p => exact Relation.ReflTransGen.tail (ih p) hpb

theorem closed_descend (n : ℕ) (parentOf : ℕ → Option ℕ) (L : List ℕ)
    (hn : ∀ b p, b < n → parentOf b = some p → p < n)
    (hC : ∀ x c, x ∈ L → c < n → parentOf c = some x → c ∈ L) :
    ∀ x y, Relation.ReflTransGen (fun u v => parentOf v = some u) x y →
      y < n → x ∈ L → y ∈ L := by
  intro x y h
  induction h with
  | refl => intro _ hx; exact hx
  | tail h' hstep ih =>
    intro hy hx
    have hm := hn _ _ hy hstep
    exact hC _ _ (ih hm hx) hy hstep

/-- The downward pass preserves the invariant, only appends, visits its
start body, and keeps the closure-with-excuses property, given enough fuel
(measured through a rank certificate of acyclicity). -/
theorem dtp_main (n : ℕ) (parentOf : ℕ → Option ℕ) (rank : ℕ → ℕ)
    (hn : ∀ b p, b < n → parentOf b = some p → p < n)
    (hrank : ∀ b p, b < n → parentOf b = some p → rank p < rank b)
    (hrb : ∀ b, b < n → rank b < n) :
    ∀ (fuel body : ℕ) (st : TreeState) (E : ℕ → Prop),
      Good n parentOf st → body < n → n ≤ fuel + rank body →
      (parentOf body = none ∨ ∃ p, parentOf body = some p ∧ p ∈ st.hlist) →
      ClosedE n parentOf st E →
      Good n parentOf (downward_tree_pass n parentOf fuel body st)
      ∧ (∃ ext, (downward_tree_pass n parentOf fuel body st).hlist
          = st.hlist ++ ext)
      ∧ body ∈ (downward_tree_pass n parentOf fuel body st).hlist
      ∧ ClosedE n parentOf (downward_tree_pass n parentOf fuel body st) E := by
  intro fuel
  induction fuel with
  | zero =>
    intro body st E _ hb hfuel _ _
    exact absurd hfuel (by have := hrb body hb; omega)
  | succ fuel ih =>
    intro body st E hG hb hfuel hentry hCE
    rw [dtp_succ]
    by_cases hadd : st.added body = true
    · rw [if_pos hadd]
      exact ⟨hG, ⟨[], (List.append_nil _).symm⟩, (hG.2.1 body).mp hadd, hCE⟩
    · rw [if_neg hadd]
      have hbnotin : body ∉ st.hlist := fun hmem => hadd ((hG.2.1 body).mpr hmem)
      have hG' : Good n parentOf
          ⟨st.hlist ++ [body], fun b => if b = body then true else st.added b⟩ := by
        refine ⟨?_, ?_, ?_, ?_⟩
        · rw [List.nodup_append]
          refine ⟨hG.1, List.nodup_singleton body, fun a ha hb' => ?_⟩
          rw [List.mem_singleton] at hb'
          exact hbnotin (hb' ▸ ha)
        · intro b
          show (if b = body then true else st.added b) = true
            ↔ b ∈ st.hlist ++ [body]
          by_cases hb' : b = body
          · subst hb'
            simp [List.mem_append]
          · rw [if_neg hb']
            rw [List.mem_append, List.mem_singleton]
            constructor
            · intro h
              exact Or.inl ((hG.2.1 b).mp h)
            · intro h
              rcases h with h | h
              · exact (hG.2.1 b).mpr h
              · exact absurd h hb'
        · intro x hx
          rcases List.mem_append.mp hx with h | h
          · exact hG.2.2.1 x h
          · rw [List.mem_singleton] at h
            exact h ▸ hb
        · intro b p hbmem hp
          rcases List.mem_append.mp hbmem with h | h
          · obtain ⟨hpmem, hidx⟩ := hG.2.2.2 b p h hp
            refine ⟨List.mem_append_left _ hpmem, ?_⟩
            rw [List.indexOf_append_of_mem hpmem, List.indexOf_append_of_mem h]
            exact hidx
          · rw [List.mem_singleton] at h
            subst h
            rcases hentry with hnone | ⟨p0, hp0, hp0mem⟩
            · rw [hnone] at hp
              cases hp
            · rw [hp0] at hp
              have hpe : p = p0 := (Option.some.inj hp).symm
              subst hpe
              refine ⟨List.mem_append_left _ hp0mem, ?_⟩
              rw [List.indexOf_append_of_mem hp0mem,
                List.indexOf_append_of_not_mem hbnotin]
              have h1 : st.hlist.indexOf p < st.hlist.length :=
                List.indexOf_lt_length.mpr hp0mem
              omega
      have hCE' : ClosedE n parentOf
          ⟨st.hlist ++ [body], fun b => if b = body then true else st.added b⟩
          (fun d => E d ∨ d ∈ childrenOf n parentOf body) := by
        intro x d hx hd hp
        rcases List.mem_append.mp hx with h | h
        · rcases hCE x d h hd hp with h' | h'
          · exact Or.inl (List.mem_append_left _ h')
          · exact Or.inr (Or.inl h')
        · rw [List.mem_singleton] at h
          subst h
          exact Or.inr (Or.inr (List.mem_filter.mpr
            ⟨List.mem_range.mpr hd, by simp [hp]⟩))
      have hkids : ∀ c ∈ childrenOf n parentOf body,
          parentOf c = some body ∧ c < n := by
        intro c hcmem
        have h := List.mem_filter.mp hcmem
        exact ⟨of_decide_eq_true h.2, List.mem_range.mp h.1⟩
      have hfold : ∀ (cs : List ℕ),
          (∀ c ∈ cs, parentOf c = some body ∧ c < n) →
          ∀ (acc : TreeState) (F : ℕ → Prop),
            Good n parentOf acc → body ∈ acc.hlist →
            ClosedE n parentOf acc (fun d => F d ∨ d ∈ cs) →
            Good n parentOf (cs.foldl
              (fun acc c => downward_tree_pass n parentOf fuel c acc) acc)
            ∧ (∃ ext, (cs.foldl
                (fun acc c => downward_tree_pass n parentOf fuel c acc) acc).hlist
                = acc.hlist ++ ext)
            ∧ ClosedE n parentOf (cs.foldl
                (fun acc c => downward_tree_pass n parentOf fuel c acc) acc) F := by
        intro cs
        induction cs with
        | nil =>
          intro _ acc F hGa _ hCEa
          refine ⟨hGa, ⟨[], (List.append_nil _).symm⟩, ?_⟩
          intro x d hx hd hp
          rcases hCEa x d hx hd hp with h | h
          · exact Or.inl h
          · rcases h with h | h
            · exact Or.inr h
            · exact absurd h (List.not_mem_nil d)
        | cons c cs' ihcs =>
          intro hcs acc F hGa hbodya hCEa
          simp only [List.foldl_cons]
          have hc := hcs c (List.mem_cons_self c cs')
          have hmain := ih c acc (fun d => F d ∨ d ∈ c :: cs') hGa hc.2
            (by have := hrank c body hc.2 hc.1; omega)
            (Or.inr ⟨body, hc.1, hbodya⟩) hCEa
          obtain ⟨hG1, ⟨ext1, hext1⟩, hcmem, hCE1⟩ := hmain
          have hbody1 : body ∈ (downward_tree_pass n parentOf fuel c acc).hlist := by
            rw [hext1]
            exact List.mem_append_left _ hbodya
          have hCE1' : ClosedE n parentOf (downward_tree_pass n parentOf fuel c acc)
              (fun d => F d ∨ d ∈ cs') := by
            intro x d hx hd hp
            rcases hCE1 x d hx hd hp with h | h
            · exact Or.inl h
            · rcases h with h | h
              · exact Or.inr (Or.inl h)
              · rcases List.mem_cons.mp h with rfl | h
                · exact Or.inl hcmem
                · exact Or.inr (Or.inr h)
          have hrec := ihcs (fun c' hc' => hcs c' (List.mem_cons_of_mem _ hc'))
            (downward_tree_pass n parentOf fuel c acc) F hG1 hbody1 hCE1'
          obtain ⟨hG2, ⟨ext2, hext2⟩, hCE2⟩ := hrec
          exact ⟨hG2, ⟨ext1 ++ ext2,
            by rw [hext2, hext1, List.append_assoc]⟩, hCE2⟩
      have hbodymem' : body ∈
          (⟨st.hlist ++ [body], fun b => if b = body then true else st.added b⟩
            : TreeState).hlist :=
        List.mem_append_right _ (List.mem_singleton.mpr rfl)
      obtain ⟨hGf, ⟨ext, hext⟩, hCEf⟩ :=
        hfold (childrenOf n parentOf body) hkids
          ⟨st.hlist ++ [body], fun b => if b = body then true else st.added b⟩
          E hG' hbodymem' hCE'
      refine ⟨hGf, ⟨body :: ext, ?_⟩, ?_, hCEf⟩
      · rw [hext]
        show (st.hlist ++ [body]) ++ ext = st.hlist ++ body :: ext
        rw [List.append_assoc]
        rfl
      · rw [hext]
        exact List.mem_append_left _ hbodymem'

/-- The outer loop of `populate_heirarchial_tree` keeps the invariant and
full closure, only appends, and visits every processed body's root. -/
theorem pht_outer (n : ℕ) (parentOf : ℕ → Option ℕ) (rank : ℕ → ℕ)
    (hn : ∀ b p, b < n → parentOf b = some p → p < n)
    (hrank : ∀ b p, b < n → parentOf b = some p → rank p < rank b)
    (hrb : ∀ b, b < n → rank b < n) :
    ∀ (bs : List ℕ) (acc : TreeState),
      (∀ b ∈ bs, b < n) → Good n parentOf acc →
      ClosedE n parentOf acc (fun _ => False) →
      Good n parentOf (bs.foldl
        (fun st b => downward_tree_pass n parentOf n
          (get_grand_parent parentOf n b) st) acc)
      ∧ ClosedE n parentOf (bs.foldl
          (fun st b => downward_tree_pass n parentOf n
            (get_grand_parent parentOf n b) st) acc) (fun _ => False)
      ∧ (∃ ext, (bs.foldl
          (fun st b => downward_tree_pass n parentOf n
            (get_grand_parent parentOf n b) st) acc).hlist = acc.hlist ++ ext)
      ∧ ∀ b ∈ bs, get_grand_parent parentOf n b ∈ (bs.foldl
          (fun st b => downward_tree_pass n parentOf n
            (get_grand_parent parentOf n b) st) acc).hlist := by
  intro bs
  induction bs with
  | nil =>
    intro acc _ hG hC
    exact ⟨hG, hC, ⟨[], (List.append_nil _).symm⟩,
      fun b hb => absurd hb (List.not_mem_nil b)⟩
  | cons b bs' ihbs =>
    intro acc hmem hG hC
    simp only [List.foldl_cons]
    have hb : b < n := hmem b (List.mem_cons_self b bs')
    have hg : get_grand_parent parentOf n b < n := gp_lt n parentOf hn n b hb
    have hroot : parentOf (get_grand_parent parentOf n b) = none :=
      gp_root n parentOf rank hn hrank n b hb (hrb b hb)
    have hmain := dtp_main n parentOf rank hn hrank hrb n
      (get_grand_parent parentOf n b) acc (fun _ => False) hG hg
      (Nat.le_add_right n _) (Or.inl hroot) hC
    obtain ⟨hG1, ⟨ext1, hext1⟩, hgp1, hC1⟩ := hmain
    have hrec := ihbs (downward_tree_pass n parentOf n
        (get_grand_parent parentOf n b) acc)
      (fun b' hb' => hmem b' (List.mem_cons_of_mem _ hb')) hG1 hC1
    obtain ⟨hG2, hC2, ⟨ext2, hext2⟩, hall⟩ := hrec
    refine ⟨hG2, hC2, ⟨ext1 ++ ext2,
      by rw [hext2, hext1, List.append_assoc]⟩, ?_⟩
    intro b' hb'
    rcases List.mem_cons.mp hb' with rfl | hb'
    · rw [hext2]
      exact List.mem_append_left _ hgp1
    · exact hall b' hb'

/-- C4: on a forest (acyclicity witnessed by a rank certificate, parent
links closed in range), the hierarchy-ordering pass outputs every body in
range exactly once, only bodies in range, and every structural ancestor of
an emitted body strictly before it. -/
theorem C4_hierarchy_order (n : ℕ) (parentOf : ℕ → Option ℕ) (rank : ℕ → ℕ)
    (hn : ∀ b p, b < n → parentOf b = some p → p < n)
    (hrank : ∀ b p, b < n → parentOf b = some p → rank p < rank b)
    (hrb : ∀ b, b < n → rank b < n) :
    (∀ b, b < n → (populate_heirarchial_tree n parentOf).count b = 1)
    ∧ (∀ b, b ∈ populate_heirarchial_tree n parentOf → b < n)
    ∧ (∀ a b, b ∈ populate_heirarchial_tree n parentOf →
        Relation.TransGen (fun x y => parentOf y = some x) a b →
        a ∈ populate_heirarchial_tree n parentOf
        ∧ (populate_heirarchial_tree n parentOf).indexOf a
            < (populate_heirarchial_tree n parentOf).indexOf b) := by
  have hG0 : Good n parentOf ⟨[], fun _ => false⟩ :=
    ⟨List.nodup_nil, fun b => by simp,
     fun x hx => absurd hx (List.not_mem_nil x),
     fun b p hb _ => absurd hb (List.not_mem_nil b)⟩
  have hC0 : ClosedE n parentOf ⟨[], fun _ => false⟩ (fun _ => False) :=
    fun x c hx _ _ => absurd hx (List.not_mem_nil x)
  obtain ⟨hGf, hCf, _, hallf⟩ := pht_outer n parentOf rank hn hrank hrb
    (List.range n) ⟨[], fun _ => false⟩
    (fun b hb => List.mem_range.mp hb) hG0 hC0
  have hpop : populate_heirarchial_tree n parentOf
      = ((List.range n).foldl
          (fun st b => downward_tree_pass n parentOf n
            (get_grand_parent parentOf n b) st)
          ⟨[], fun _ => false⟩).hlist := rfl
  have hclosed : ∀ x c,
      x ∈ populate_heirarchial_tree n parentOf → c < n →
      parentOf c = some x → c ∈ populate_heirarchial_tree n parentOf := by
    intro x c hx hc hp
    rw [hpop] at hx ⊢
    exact (hCf x c hx hc hp).resolve_right id
  have hcomplete : ∀ b, b < n → b ∈ populate_heirarchial_tree n parentOf := by
    intro b hb
    have hgp : get_grand_parent parentOf n b
        ∈ populate_heirarchial_tree n parentOf := by
      rw [hpop]
      exact hallf b (List.mem_range.mpr hb)
    exact closed_descend n parentOf _ hn hclosed _ b
      (gp_reaches parentOf n b) hb hgp
  refine ⟨?_, ?_, ?_⟩
  · intro b hb
    have hmem := hcomplete b hb
    rw [hpop] at hmem ⊢
    exact List.count_eq_one_of_mem hGf.1 hmem
  · intro b hbmem
    rw [hpop] at hbmem
    exact hGf.2.2.1 b hbmem
  · intro a b hbmem hanc
    rw [hpop] at hbmem ⊢
    revert hbmem
    induction hanc with
    | single hstep =>
      intro hbmem
      exact hGf.2.2.2 _ a hbmem hstep
    | tail hanc' hstep ihanc =>
      intro hbmem
      have hm := hGf.2.2.2 _ _ hbmem hstep
      have ha := ihanc hm.1
      exact ⟨ha.1, lt_trans ha.2 hm.2⟩

/-- A three-body chain `0 ← 1 ← 2` for the C4 witness. -/
def pfW : ℕ → Option ℕ :=
  fun b => if b = 1 then some 0 else if b = 2 then some 1 else none

/-- C4, witness: on the concrete chain the leaf appears exactly once and
its grand-ancestor `0` precedes it. -/
theorem C4_hierarchy_order_witness :
    (populate_heirarchial_tree 3 pfW).count 2 = 1
    ∧ (2 : ℕ) ∈ populate_heirarchial_tree 3 pfW
    ∧ (populate_heirarchial_tree 3 pfW).indexOf 0
        < (populate_heirarchial_tree 3 pfW).indexOf 2 := by
  have h := C4_hierarchy_order 3 pfW (fun x => x)
    (by
      intro b p hb hp
      interval_cases b <;> simp [pfW] at hp <;> omega)
    (by
      intro b p hb hp
      show p < b
      interval_cases b <;> simp [pfW] at hp <;> omega)
    (by
      intro b hb
      show b < 3
      exact hb)
  have hmem : (2 : ℕ) ∈ populate_heirarchial_tree 3 pfW := by decide
  refine ⟨h.1 2 (by norm_num), hmem, ?_⟩
  exact (h.2.2 0 2 hmem
    (Relation.TransGen.tail
      (Relation.TransGen.single (show pfW 1 = some 0 from rfl))
      (show pfW 2 = some 1 from rfl))).2

end

end AmbfAddon
